import Mathlib

/-!
Verification development for the code-map generator/validator subsystem
(skills/code-map and skills/code-mapping).

The Python sources are shallowly embedded: the filesystem is a finite
association list from paths (component lists) to files; a file carries its
raw text together with the outcome of parsing it as Python source (the
abstract syntax tree, or nothing when parsing fails with a syntax or
encoding error).  Pure Python functions become Lean functions over this
model; the markdown link regexes are implemented as explicit scanners with
the same matching semantics.
-/

set_option maxRecDepth 10000

namespace CodeMap

/-! ## Paths and the filesystem model -/

/-- A filesystem path, as its list of components from the root. -/
abbrev Path := List String

/-- Python AST nodes, at the granularity the embedded code inspects
(`ast.FunctionDef`, `ast.AsyncFunctionDef`, `ast.ClassDef`, anything else).
The `docstring` field models `ast.get_docstring node`, and `signature`
models the string `_format_signature node` renders from the argument list
(no claim depends on how that string is computed from the arguments, so it
is carried as node data). -/
inductive PyStmt where
  | funcDef (name : String) (lineno : Nat) (isAsync : Bool)
      (docstring : Option String) (signature : String) (body : List PyStmt)
  | classDef (name : String) (lineno : Nat)
      (docstring : Option String) (body : List PyStmt)
  | otherStmt (body : List PyStmt)
deriving Repr

/-- A parsed Python module: `ast.get_docstring tree` and the direct children
of the module node. -/
structure PyModule where
  docstring : Option String
  body : List PyStmt
deriving Repr

/-- A file on disk: its raw text and the outcome of `ast.parse` on that text
(`none` models a `SyntaxError` or `UnicodeDecodeError`). -/
structure FSFile where
  content : String
  pyParse : Option PyModule
deriving Repr

instance : Inhabited FSFile := ⟨{ content := "", pyParse := none }⟩

/-- The filesystem: a finite association list from paths to files. -/
abbrev FS := List (Path × FSFile)

/-- Look a path up in the filesystem (first matching entry). -/
def FS.lookup (fs : FS) (p : Path) : Option FSFile :=
  (List.find? (fun e => e.1 = p) fs).map (·.2)

/-- `Path.exists` for a file. -/
def FS.fileExists (fs : FS) (p : Path) : Bool :=
  (fs.lookup p).isSome

/-- The last component of a path (its file name), or `""` at the root. -/
def Path.name (p : Path) : String := p.getLastD ""

/-- `dir` is a proper ancestor directory of `p`. -/
def isUnder (dir p : Path) : Bool :=
  dir.isPrefixOf p && decide (dir.length < p.length)

/-! ## Python string primitives

Structural reimplementations of the string operations the embedded code
uses (`startswith`, `endswith`, `strip`, `rstrip`, `split`, `join`,
`replace`), so that every definition evaluates by kernel reduction. -/

/-- The newline character. -/
def newlineChar : Char := Char.ofNat 10

/-- Python `str.startswith`. -/
def strStarts (s pat : String) : Bool := pat.data.isPrefixOf s.data

/-- Python `str.endswith`. -/
def strEnds (s pat : String) : Bool := pat.data.isSuffixOf s.data

/-- Python `str.strip`. -/
def pyStrip (s : String) : String :=
  String.mk
    (((s.data.dropWhile Char.isWhitespace).reverse.dropWhile
        Char.isWhitespace).reverse)

/-- Python `str.rstrip`. -/
def pyRstrip (s : String) : String :=
  String.mk ((s.data.reverse.dropWhile Char.isWhitespace).reverse)

/-- The accumulator loop of `str.split` on a single separator character. -/
def splitOnCharAux (sep : Char) : List Char → List Char → List String
  | [], acc => [String.mk acc.reverse]
  | c :: cs, acc =>
    if c = sep then String.mk acc.reverse :: splitOnCharAux sep cs []
    else splitOnCharAux sep cs (c :: acc)

/-- Python `s.split sep` for a one-character separator (the embedded code
splits only on a newline or a slash). -/
def splitOnChar (sep : Char) (s : String) : List String :=
  splitOnCharAux sep s.data []

/-- Python `sep.join xs`. -/
def strJoin (sep : String) : List String → String
  | [] => ""
  | [x] => x
  | x :: xs => x ++ sep ++ strJoin sep xs

/-- The loop of `str.replace`, with fuel for structural recursion (the fuel
is at least the character count plus one, so it never runs out). -/
def strReplaceAux (pat rep : List Char) : Nat → List Char → List Char
  | 0, cs => cs
  | _ + 1, [] => []
  | fuel + 1, c :: rest =>
    if pat.isPrefixOf (c :: rest) && !pat.isEmpty then
      rep ++ strReplaceAux pat rep fuel ((c :: rest).drop pat.length)
    else c :: strReplaceAux pat rep fuel rest

/-- Python `s.replace pat rep` for a nonempty pattern: non-overlapping,
left to right. -/
def strReplace (s pat rep : String) : String :=
  String.mk (strReplaceAux pat.data rep.data (s.data.length + 1) s.data)

/-! ## Symbol extraction (code-mapping/scripts/generate/parser.py) -/

/-- `SymbolKind` from models.py. -/
inductive SymbolKind where
  | CLASS
  | FUNCTION
  | METHOD
deriving Repr, DecidableEq

/-- `ExtractedSymbol` from models.py. -/
structure ExtractedSymbol where
  name : String
  kind : SymbolKind
  line : Nat
  parent : Option String := none
  docstring : Option String := none
  signature : Option String := none
deriving Repr, DecidableEq

/-- The module walk of `extract_symbols`: iterate the direct children of the
module node; top-level `def`/`async def` become FUNCTION entries, each
`class` becomes a CLASS entry immediately followed by METHOD entries for the
function definitions among its direct children. -/
def extractSymbolsOfModule (tree : PyModule) : List ExtractedSymbol :=
  tree.body.flatMap fun node =>
    match node with
    | .funcDef name lineno _ doc sig _ =>
        [{ name := name, kind := .FUNCTION, line := lineno, parent := none,
           docstring := doc, signature := some sig }]
    | .classDef cname clineno cdoc cbody =>
        { name := cname, kind := .CLASS, line := clineno, parent := none,
          docstring := cdoc, signature := none } ::
        cbody.filterMap (fun child =>
          match child with
          | .funcDef mname mline _ mdoc msig _ =>
              some { name := mname, kind := .METHOD, line := mline,
                     parent := some cname, docstring := mdoc,
                     signature := some msig }
          | _ => none)
    | .otherStmt _ => []

/-- `extract_symbols` from parser.py: empty when the file is missing or does
not parse as Python. -/
def extract_symbols (fs : FS) (source_path : Path) : List ExtractedSymbol :=
  match fs.lookup source_path with
  | none => []
  | some f =>
    match f.pyParse with
    | none => []
    | some tree => extractSymbolsOfModule tree

/-- `extract_module_docstring` from parser.py. -/
def extract_module_docstring (fs : FS) (source_path : Path) : Option String :=
  match fs.lookup source_path with
  | none => none
  | some f =>
    match f.pyParse with
    | none => none
    | some tree => tree.docstring

/-! ## The validator symbol lister (code-map/scripts/validate/lsp_client.py) -/

/-- `Symbol` from lsp_client.py. -/
structure Symbol where
  name : String
  line : Nat
  kind : String
deriving Repr, DecidableEq

-- `ast.walk` restricted to statements: all descendant statement nodes,
-- the start node included (the Python documentation leaves the order
-- unspecified).
mutual

def pyWalk : PyStmt → List PyStmt
  | .funcDef n l a d s body => .funcDef n l a d s body :: pyWalkList body
  | .classDef n l d body => .classDef n l d body :: pyWalkList body
  | .otherStmt body => .otherStmt body :: pyWalkList body

def pyWalkList : List PyStmt → List PyStmt
  | [] => []
  | s :: ss => pyWalk s ++ pyWalkList ss

end

/-- All statement nodes of a module, as `ast.walk tree` yields them. -/
def walkModule (m : PyModule) : List PyStmt := pyWalkList m.body

/-- `get_symbols` from lsp_client.py.  The `isinstance node ast.FunctionDef`
test is false for `ast.AsyncFunctionDef` nodes, so async functions are
skipped. -/
def get_symbols (fs : FS) (file_path : Path) : List Symbol :=
  match fs.lookup file_path with
  | none => []
  | some f =>
    match f.pyParse with
    | none => []
    | some tree =>
      (walkModule tree).filterMap fun node =>
        match node with
        | .funcDef name lineno isAsync _ _ _ =>
            if isAsync then none
            else some { name := name, line := lineno, kind := "function" }
        | .classDef name lineno _ _ =>
            some { name := name, line := lineno, kind := "class" }
        | .otherStmt _ => none

/-- `symbol_exists` from lsp_client.py. -/
def symbol_exists (fs : FS) (file_path : Path) (symbol_name : String) : Bool :=
  (get_symbols fs file_path).any (fun s => s.name = symbol_name)

/-- `symbol_at_line` from lsp_client.py. -/
def symbol_at_line (fs : FS) (file_path : Path) (symbol_name : String)
    (line : Nat) (tolerance : Nat) : Bool :=
  (get_symbols fs file_path).any (fun s =>
    s.name = symbol_name && decide (((s.line : Int) - line).natAbs ≤ tolerance))

/-! ## String helpers shared by the scanners -/

/-- The backtick character. -/
def backtickChar : Char := Char.ofNat 96

/-- One-or-more repetition of a character class: the maximal run of
characters satisfying `p`, failing when that run is empty (the semantics of
a greedy `[...]+` whose class excludes the character required next). -/
def takeWhile1 (p : Char → Bool) (cs : List Char) :
    Option (List Char × List Char) :=
  let t := cs.takeWhile p
  if t.isEmpty then none else some (t, cs.drop t.length)

/-- Consume one expected literal character. -/
def expectChar (c : Char) : List Char → Option (List Char)
  | x :: rest => if x = c then some rest else none
  | [] => none

/-- Consume an expected literal character sequence. -/
def expectChars (lit : List Char) (cs : List Char) : Option (List Char) :=
  if lit.isPrefixOf cs then some (cs.drop lit.length) else none

/-- Decimal digits to a number, as Python `int` reads them. -/
def digitsToNat (ds : List Char) : Nat :=
  ds.foldl (fun a c => a * 10 + (c.toNat - 48)) 0

/-- Substring test on character lists. -/
def listHasSub (pat : List Char) : List Char → Bool
  | [] => pat.isEmpty
  | c :: rest => pat.isPrefixOf (c :: rest) || listHasSub pat rest

/-- The Python `sub in s` substring test. -/
def strContains (s sub : String) : Bool := listHasSub sub.data s.data

/-! ## Markdown link scanners (validate/validate_map.py)

The three regexes are implemented as explicit scanners.  Each `...Tail`
function attempts one anchored match at a position holding a literal
opening bracket, with `rest` the characters after that bracket, and returns
the captured groups together with the number of characters consumed after
the bracket; every character class in the patterns excludes the literal
character required next, so the greedy maximal-run reading is exact.  The
`...Matches` functions reproduce `re.finditer`: scan left to right,
non-overlapping, resuming after the end of each match. -/

/-- A match of CODE_LINK_PATTERN. -/
structure CodeLinkMatch where
  start : Nat
  raw : String
  symbol : String
  path : String
  lineno : Nat
deriving Repr, DecidableEq

/-- A match of SOURCE_LINK_PATTERN. -/
structure SourceLinkMatch where
  start : Nat
  raw : String
  path : String
  lineno : Nat
deriving Repr, DecidableEq

/-- A match of FILE_LINK_PATTERN. -/
structure FileLinkMatch where
  start : Nat
  raw : String
  text : String
  path : String
deriving Repr, DecidableEq

/-- Anchored tail of CODE_LINK_PATTERN. -/
def codeLinkTail (rest : List Char) :
    Option (String × String × Nat × Nat) := do
  let r1 ← expectChar backtickChar rest
  let (sym, r2) ← takeWhile1 (fun c => c != backtickChar) r1
  let r3 ← expectChar backtickChar r2
  let r4 ← expectChar ']' r3
  let r5 ← expectChar '(' r4
  let (path, r6) ← takeWhile1 (fun c => c != ')' && c != '#') r5
  let r7 ← expectChar '#' r6
  let r8 ← expectChar 'L' r7
  let (ds, r9) ← takeWhile1 Char.isDigit r8
  let r10 ← expectChar ')' r9
  some (String.mk sym, String.mk path, digitsToNat ds, rest.length - r10.length)

/-- `re.finditer` for CODE_LINK_PATTERN over one line (structural on fuel;
every step consumes at least one character, so fuel of the character count
plus one never runs out). -/
def codeLinkMatchesAux : Nat → List Char → Nat → List CodeLinkMatch
  | 0, _, _ => []
  | _ + 1, [], _ => []
  | fuel + 1, c :: rest, off =>
    if c = '[' then
      match codeLinkTail rest with
      | some (sym, path, n, k) =>
          { start := off, raw := String.mk ('[' :: rest.take k),
            symbol := sym, path := path, lineno := n }
            :: codeLinkMatchesAux fuel (rest.drop k) (off + 1 + k)
      | none => codeLinkMatchesAux fuel rest (off + 1)
    else codeLinkMatchesAux fuel rest (off + 1)

/-- CODE_LINK_PATTERN matches of one line. -/
def codeLinkMatches (line : String) : List CodeLinkMatch :=
  codeLinkMatchesAux (line.data.length + 1) line.data 0

/-- Anchored tail of SOURCE_LINK_PATTERN. -/
def sourceLinkTail (rest : List Char) : Option (String × Nat × Nat) := do
  let r1 ← expectChars "Source](".data rest
  let (path, r2) ← takeWhile1 (fun c => c != ')' && c != '#') r1
  let r3 ← expectChar '#' r2
  let r4 ← expectChar 'L' r3
  let (ds, r5) ← takeWhile1 Char.isDigit r4
  let r6 ← expectChar ')' r5
  some (String.mk path, digitsToNat ds, rest.length - r6.length)

/-- `re.finditer` for SOURCE_LINK_PATTERN over one line (fuel as above). -/
def sourceLinkMatchesAux : Nat → List Char → Nat → List SourceLinkMatch
  | 0, _, _ => []
  | _ + 1, [], _ => []
  | fuel + 1, c :: rest, off =>
    if c = '[' then
      match sourceLinkTail rest with
      | some (path, n, k) =>
          { start := off, raw := String.mk ('[' :: rest.take k),
            path := path, lineno := n }
            :: sourceLinkMatchesAux fuel (rest.drop k) (off + 1 + k)
      | none => sourceLinkMatchesAux fuel rest (off + 1)
    else sourceLinkMatchesAux fuel rest (off + 1)

/-- SOURCE_LINK_PATTERN matches of one line. -/
def sourceLinkMatches (line : String) : List SourceLinkMatch :=
  sourceLinkMatchesAux (line.data.length + 1) line.data 0

/-- Anchored tail of FILE_LINK_PATTERN; the optional fragment group is
attempted greedily, and when it fails the no-fragment alternative requires
the closing parenthesis immediately (which the leading hash then refutes),
exactly as the regex engine backtracks. -/
def fileLinkTail (rest : List Char) : Option (String × String × Nat) := do
  let (text, r1) ← takeWhile1 (fun c => c != ']') rest
  let r2 ← expectChar ']' r1
  let r3 ← expectChar '(' r2
  let (path, r4) ← takeWhile1 (fun c => c != ')' && c != '#') r3
  let r5 ←
    match r4 with
    | '#' :: r =>
        (takeWhile1 (fun c => c != ')') r).bind (fun t => expectChar ')' t.2)
    | _ => expectChar ')' r4
  some (String.mk text, String.mk path, rest.length - r5.length)

/-- `re.finditer` for FILE_LINK_PATTERN over one line (fuel as above). -/
def fileLinkMatchesAux : Nat → List Char → Nat → List FileLinkMatch
  | 0, _, _ => []
  | _ + 1, [], _ => []
  | fuel + 1, c :: rest, off =>
    if c = '[' then
      match fileLinkTail rest with
      | some (text, path, k) =>
          { start := off, raw := String.mk ('[' :: rest.take k),
            text := text, path := path }
            :: fileLinkMatchesAux fuel (rest.drop k) (off + 1 + k)
      | none => fileLinkMatchesAux fuel rest (off + 1)
    else fileLinkMatchesAux fuel rest (off + 1)

/-- FILE_LINK_PATTERN matches of one line. -/
def fileLinkMatches (line : String) : List FileLinkMatch :=
  fileLinkMatchesAux (line.data.length + 1) line.data 0

/-! ## Inline-code detection and fenced blocks -/

/-- `prefix.count "\x60\x60"`: non-overlapping left-to-right count. -/
def countDoubleBackticks : List Char → Nat
  | c1 :: c2 :: rest =>
    if c1 = backtickChar && c2 = backtickChar then countDoubleBackticks rest + 1
    else countDoubleBackticks (c2 :: rest)
  | _ => 0

/-- `prefix.replace "\x60\x60" ""`. -/
def removeDoubleBackticks : List Char → List Char
  | c1 :: c2 :: rest =>
    if c1 = backtickChar && c2 = backtickChar then removeDoubleBackticks rest
    else c1 :: removeDoubleBackticks (c2 :: rest)
  | cs => cs

/-- `_is_in_code_context` from validate_map.py. -/
def isInCodeContext (line : String) (matchStart : Nat) : Bool :=
  let pre := line.data.take matchStart
  if countDoubleBackticks pre % 2 = 1 then true
  else (removeDoubleBackticks pre).count backtickChar % 2 = 1

/-- The link-scanning loop shared by `check_file_links` and
`check_code_links`: split on newlines, number lines from 1, toggle the
fenced-code-block flag on lines whose stripped form starts with three
backticks, and keep only the visible lines (fence lines themselves are
skipped). -/
def visibleLinesAux : List String → Nat → Bool → List (Nat × String)
  | [], _, _ => []
  | l :: ls, n, inBlock =>
    if strStarts (pyStrip l) "```" then visibleLinesAux ls (n + 1) (!inBlock)
    else if inBlock then visibleLinesAux ls (n + 1) inBlock
    else (n, l) :: visibleLinesAux ls (n + 1) inBlock

/-- Visible (non-fenced) numbered lines of a markdown document. -/
def visibleLines (content : String) : List (Nat × String) :=
  visibleLinesAux (splitOnChar newlineChar content) 1 false

/-! ## Path arithmetic -/

/-- Join path components with forward slashes (`str` of a relative path). -/
def pathStr (p : Path) : String := strJoin "/" p

/-- `p.relative_to dir` for `dir` an ancestor of `p`. -/
def relativeTo (p dir : Path) : Path := p.drop dir.length

/-- Split a link target on forward slashes. -/
def splitPosix (s : String) : List String := splitOnChar '/' s

/-- `Path.resolve`: drop empty and dot components and fold parent-directory
components away. -/
def normalizePath (parts : List String) : Path :=
  parts.foldl
    (fun acc c =>
      if c = "" || c = "." then acc
      else if c = ".." then acc.dropLast
      else acc ++ [c])
    []

/-- `(base / link).resolve()` for a directory `base` already in normal
form. -/
def resolveRel (base : Path) (link : String) : Path :=
  if strStarts link "/" then normalizePath (splitPosix link)
  else normalizePath (base ++ splitPosix link)

/-- The markdown files below `map_dir` (`map_dir.rglob "*.md"`), with their
contents. -/
def mdFilesUnder (fs : FS) (mapDir : Path) : List (Path × FSFile) :=
  fs.filter (fun e => isUnder mapDir e.1 && strEnds (Path.name e.1) ".md")

/-! ## The validator (code-mapping/scripts/validate/validate_map.py) -/

/-- `ValidationError` from validate_map.py. -/
structure ValidationError where
  file : String
  line : Nat
  message : String
  error_type : String
deriving Repr, DecidableEq

/-- The body of the `check_file_links` match loop for one FILE_LINK match:
skip matches inside inline code, external URLs, symbol code links and
Python file targets; otherwise resolve the target against the containing
file's directory and report it when missing. -/
def fileLinkErrorsForMatch (fs : FS) (mapDir mdPath : Path) (lineNum : Nat)
    (line : String) (m : FileLinkMatch) : List ValidationError :=
  if isInCodeContext line m.start then []
  else if strStarts m.path "http://" || strStarts m.path "https://"
      || strStarts m.path "mailto:" then []
  else if strStarts m.text "`" && strContains m.raw "#L" then []
  else if strEnds m.path ".py" then []
  else
    let target := resolveRel mdPath.dropLast m.path
    if fs.fileExists target then []
    else
      [{ file := pathStr (relativeTo mdPath mapDir), line := lineNum,
         message := "[" ++ m.text ++ "](" ++ m.path ++ ") -> file not found",
         error_type := "broken_link" }]

/-- `check_file_links` from validate_map.py. -/
def check_file_links (fs : FS) (mapDir : Path) : List ValidationError :=
  (mdFilesUnder fs mapDir).flatMap fun e =>
    (visibleLines e.2.content).flatMap fun vl =>
      (fileLinkMatches vl.2).flatMap
        (fileLinkErrorsForMatch fs mapDir e.1 vl.1 vl.2)

/-- The body of the `check_code_links` match loop for one CODE_LINK match:
missing file, then missing symbol, then the line-drift check with a
tolerance of five lines. -/
def codeLinkErrorsForMatch (fs : FS) (mapDir mdPath : Path) (lineNum : Nat)
    (line : String) (m : CodeLinkMatch) : List ValidationError :=
  if isInCodeContext line m.start then []
  else
    let target := resolveRel mdPath.dropLast m.path
    if !(fs.fileExists target) then
      [{ file := pathStr (relativeTo mdPath mapDir), line := lineNum,
         message := "[`" ++ m.symbol ++ "`](" ++ m.path ++ "#L"
           ++ toString m.lineno ++ ") -> file not found",
         error_type := "broken_symbol" }]
    else if !(symbol_exists fs target m.symbol) then
      [{ file := pathStr (relativeTo mdPath mapDir), line := lineNum,
         message := "[`" ++ m.symbol ++ "`](" ++ m.path ++ "#L"
           ++ toString m.lineno ++ ") -> symbol not found",
         error_type := "broken_symbol" }]
    else if !(symbol_at_line fs target m.symbol m.lineno 5) then
      [{ file := pathStr (relativeTo mdPath mapDir), line := lineNum,
         message := "[`" ++ m.symbol ++ "`](" ++ m.path ++ "#L"
           ++ toString m.lineno ++ ") -> symbol not at line "
           ++ toString m.lineno,
         error_type := "broken_symbol" }]
    else []

/-- The body of the `check_code_links` match loop for one SOURCE_LINK
match: missing file, then the file-length bound on the pinned line. -/
def sourceLinkErrorsForMatch (fs : FS) (mapDir mdPath : Path) (lineNum : Nat)
    (line : String) (m : SourceLinkMatch) : List ValidationError :=
  if isInCodeContext line m.start then []
  else
    let target := resolveRel mdPath.dropLast m.path
    match fs.lookup target with
    | none =>
      [{ file := pathStr (relativeTo mdPath mapDir), line := lineNum,
         message := "[Source](" ++ m.path ++ "#L" ++ toString m.lineno
           ++ ") -> file not found",
         error_type := "broken_symbol" }]
    | some tf =>
      let fileLines := splitOnChar newlineChar tf.content
      if fileLines.length < m.lineno then
        [{ file := pathStr (relativeTo mdPath mapDir), line := lineNum,
           message := "[Source](" ++ m.path ++ "#L" ++ toString m.lineno
             ++ ") -> line " ++ toString m.lineno
             ++ " exceeds file length (" ++ toString fileLines.length
             ++ " lines)",
           error_type := "broken_symbol" }]
      else []

/-- `check_code_links` from validate_map.py: per visible line, the symbol
code links are checked first, then the `[Source]` links. -/
def check_code_links (fs : FS) (mapDir : Path) : List ValidationError :=
  (mdFilesUnder fs mapDir).flatMap fun e =>
    (visibleLines e.2.content).flatMap fun vl =>
      (codeLinkMatches vl.2).flatMap
        (codeLinkErrorsForMatch fs mapDir e.1 vl.1 vl.2)
      ++ (sourceLinkMatches vl.2).flatMap
        (sourceLinkErrorsForMatch fs mapDir e.1 vl.1 vl.2)

/-! ## Size limits (check_size_limits) -/

/-- SIZE_LIMITS from validate_map.py. -/
def SIZE_LIMITS_L0 : Nat := 500

/-- Limit for domain documents. -/
def SIZE_LIMITS_L1 : Nat := 300

/-- Limit for module documents. -/
def SIZE_LIMITS_L2 : Nat := 200

/-- `len(path.read_text().split "\n")`: how `check_size_limits` counts the
lines of a file. -/
def lineCountOf (f : FSFile) : Nat := (splitOnChar newlineChar f.content).length

/-- The L0 check: ARCHITECTURE.md directly under the map directory. -/
def l0SizeErrors (fs : FS) (mapDir : Path) : List ValidationError :=
  match fs.lookup (mapDir ++ ["ARCHITECTURE.md"]) with
  | none => []
  | some f =>
    if SIZE_LIMITS_L0 < lineCountOf f then
      [{ file := "ARCHITECTURE.md", line := 0,
         message := "Exceeds L0 limit: " ++ toString (lineCountOf f)
           ++ " lines > " ++ toString SIZE_LIMITS_L0,
         error_type := "size_limit" }]
    else []

/-- Whether a path is a direct `*.md` child of `map_dir/domains`. -/
def isDomainDoc (mapDir p : Path) : Bool :=
  (mapDir ++ ["domains"]).isPrefixOf p
    && decide (p.length = mapDir.length + 2)
    && strEnds (Path.name p) ".md"

/-- The L1 contribution of one filesystem entry. -/
def l1SizeErrorsForEntry (mapDir : Path) (p : Path) (f : FSFile) :
    List ValidationError :=
  if isDomainDoc mapDir p then
    if SIZE_LIMITS_L1 < lineCountOf f then
      [{ file := "domains/" ++ Path.name p, line := 0,
         message := "Exceeds L1 limit: " ++ toString (lineCountOf f)
           ++ " lines > " ++ toString SIZE_LIMITS_L1,
         error_type := "size_limit" }]
    else []
  else []

/-- Whether a path is a `*.md` file anywhere below `map_dir/modules`. -/
def isModuleDoc (mapDir p : Path) : Bool :=
  isUnder (mapDir ++ ["modules"]) p && strEnds (Path.name p) ".md"

/-- The L2 contribution of one filesystem entry. -/
def l2SizeErrorsForEntry (mapDir : Path) (p : Path) (f : FSFile) :
    List ValidationError :=
  if isModuleDoc mapDir p then
    if SIZE_LIMITS_L2 < lineCountOf f then
      [{ file := pathStr (relativeTo p mapDir), line := 0,
         message := "Exceeds L2 limit: " ++ toString (lineCountOf f)
           ++ " lines > " ++ toString SIZE_LIMITS_L2,
         error_type := "size_limit" }]
    else []
  else []

/-- `check_size_limits` from validate_map.py.  The `domains`/`modules`
directory-existence guards only gate the globs and are dropped: without
matching entries the corresponding lists are empty anyway. -/
def check_size_limits (fs : FS) (mapDir : Path) : List ValidationError :=
  l0SizeErrors fs mapDir
    ++ fs.flatMap (fun e => l1SizeErrorsForEntry mapDir e.1 e.2)
    ++ fs.flatMap (fun e => l2SizeErrorsForEntry mapDir e.1 e.2)

/-! ## Renderer primitives (code-mapping/scripts/generate/renderer.py) -/

/-- PLACEHOLDER opening sentinel from renderer.py. -/
def placeholderMarkL : String := "<!-- TODO: "

/-- PLACEHOLDER closing sentinel from renderer.py. -/
def placeholderMarkR : String := " -->"

/-- `make_placeholder` from renderer.py. -/
def make_placeholder (hint : String) : String :=
  placeholderMarkL ++ hint ++ placeholderMarkR

/-- `is_placeholder` from renderer.py: sentinel test on the stripped
text. -/
def is_placeholder (text : String) : Bool :=
  let stripped := pyStrip text
  strStarts stripped placeholderMarkL && strEnds stripped placeholderMarkR

/-- The common-prefix length loop of `compute_relative_path`. -/
def commonPrefixLen : List String → List String → Nat
  | a :: as, b :: bs => if a = b then commonPrefixLen as bs + 1 else 0
  | _, _ => 0

/-- `compute_relative_path` from renderer.py, over already-absolute
component lists: `relative_to` when the map directory is an ancestor of the
source, otherwise the walk-up fallback. -/
def compute_relative_path (from_map to_src : Path) : String :=
  let fromParent := from_map.dropLast
  if fromParent.isPrefixOf to_src then
    let rel := to_src.drop fromParent.length
    if rel.isEmpty then "." else strJoin "/" rel
  else
    let common := commonPrefixLen fromParent to_src
    let ups := fromParent.length - common
    strJoin "/" (List.replicate ups ".." ++ to_src.drop common)

/-! ## Data models (code-mapping/scripts/generate/models.py) -/

/-- `Section` from models.py. -/
structure Section where
  symbol_name : String
  symbol_kind : SymbolKind
  line_number : Nat
  description : String
  is_placeholder : Bool
deriving Repr, DecidableEq

/-- `MapFile` from models.py. -/
structure MapFile where
  source_path : Path
  map_path : Path
  file_description : String
  file_description_is_placeholder : Bool
  sections : List Section := []
deriving Repr, DecidableEq

/-- `MissingDocstring` from models.py. -/
structure MissingDocstring where
  source_path : Path
  line : Nat
  symbol_name : String
deriving Repr, DecidableEq

/-- `ChangeReport` from code-mapping models.py.  Note the declared fields:
there is no `unfilled_placeholders` field. -/
structure ChangeReport where
  created_files : List Path := []
  updated_files : List Path := []
  deleted_files : List Path := []
  new_sections : List (Path × String) := []
  removed_sections : List (Path × String) := []
  missing_docstrings : List MissingDocstring := []
  missing_descriptions : List Path := []
deriving Repr, DecidableEq

/-! ## The differ (code-mapping/scripts/generate/differ.py) -/

/-- `ParsedSection` from differ.py. -/
structure ParsedSection where
  symbol_name : String
  line_number : Nat
  description : String
  is_placeholder : Bool
deriving Repr, DecidableEq

/-- `ParsedMapFile` from differ.py; the `sections` dict is modeled as an
association list with unique keys and first-match lookup. -/
structure ParsedMapFile where
  file_description : String
  file_description_is_placeholder : Bool
  sections : List (String × ParsedSection) := []
deriving Repr, DecidableEq

/-- Dict lookup on the `sections` mapping. -/
def sectionsLookup (secs : List (String × ParsedSection)) (n : String) :
    Option ParsedSection :=
  (List.find? (fun e => e.1 = n) secs).map (·.2)

/-- `merge_maps` from differ.py.  Python sets are modeled as deduplicated
lists; set difference becomes a membership filter (elements exact, order
immaterial, matching the unspecified iteration order of a Python set). -/
def merge_maps (existing : Option ParsedMapFile)
    (symbols : List ExtractedSymbol) (source_path map_path : Path) :
    MapFile × List String × List String :=
  let current_names := (symbols.map (·.name)).dedup
  match existing with
  | none =>
    let sections := symbols.map fun s =>
      ({ symbol_name := s.name, symbol_kind := s.kind, line_number := s.line,
         description := make_placeholder ("Describe " ++ s.name),
         is_placeholder := true } : Section)
    (({ source_path := source_path, map_path := map_path,
        file_description := make_placeholder "Describe this module",
        file_description_is_placeholder := true,
        sections := sections } : MapFile),
     [], current_names)
  | some ex =>
    let existing_names := (ex.sections.map (·.1)).dedup
    let removed := existing_names.filter (fun n => decide (n ∉ current_names))
    let added := current_names.filter (fun n => decide (n ∉ existing_names))
    let sections := symbols.map fun s =>
      match sectionsLookup ex.sections s.name with
      | some old =>
        ({ symbol_name := s.name, symbol_kind := s.kind,
           line_number := s.line, description := old.description,
           is_placeholder := old.is_placeholder } : Section)
      | none =>
        ({ symbol_name := s.name, symbol_kind := s.kind,
           line_number := s.line,
           description := make_placeholder ("Describe " ++ s.name),
           is_placeholder := true } : Section)
    let file_desc :=
      if ex.file_description_is_placeholder then
        make_placeholder "Describe this module"
      else ex.file_description
    (({ source_path := source_path, map_path := map_path,
        file_description := file_desc,
        file_description_is_placeholder := ex.file_description_is_placeholder,
        sections := sections } : MapFile),
     removed, added)

/-! ## Helper lemmas -/

lemma listHasSub_iff_infix (pat cs : List Char) :
    listHasSub pat cs = true ↔ pat <:+: cs := by
  induction cs with
  | nil =>
    simp [listHasSub, List.isEmpty_iff]
  | cons c rest ih =>
    simp [listHasSub, ih, List.infix_cons_iff, List.isPrefixOf_iff_prefix]

lemma strContains_of_parts (a pat b : String) (s : String)
    (h : s.data = a.data ++ pat.data ++ b.data) :
    strContains s pat = true := by
  unfold strContains
  rw [h, listHasSub_iff_infix]
  exact ⟨a.data, b.data, by simp⟩

lemma data_make_placeholder (h : String) :
    (make_placeholder h).data =
      placeholderMarkL.data ++ h.data ++ placeholderMarkR.data := by
  simp [make_placeholder]

lemma pyStrip_make_placeholder (h : String) :
    pyStrip (make_placeholder h) = make_placeholder h := by
  have hdata := data_make_placeholder h
  have hL : placeholderMarkL.data = '<' :: "!-- TODO: ".data := rfl
  have h1 : (make_placeholder h).data.dropWhile Char.isWhitespace =
      (make_placeholder h).data := by
    rw [hdata, hL]
    simp [List.dropWhile_cons]
  have hR : placeholderMarkR.data.reverse = '>' :: " --".data.reverse := rfl
  have h2 : (make_placeholder h).data.reverse.dropWhile Char.isWhitespace =
      (make_placeholder h).data.reverse := by
    rw [hdata]
    simp only [List.reverse_append, hR]
    simp [List.dropWhile_cons]
  unfold pyStrip
  rw [h1, h2]
  simp

lemma is_placeholder_make (h : String) :
    is_placeholder (make_placeholder h) = true := by
  simp only [is_placeholder, pyStrip_make_placeholder, Bool.and_eq_true]
  constructor
  · unfold strStarts
    rw [data_make_placeholder, List.isPrefixOf_iff_prefix, List.append_assoc]
    exact List.prefix_append _ _
  · unfold strEnds
    rw [data_make_placeholder, List.isSuffixOf_iff_suffix]
    exact List.suffix_append _ _

/-! ## C6 -/

/-- C6: for every path, `extract_symbols` returns the empty list (and
`extract_module_docstring` returns none) whenever the file does not exist
or its contents fail to parse (syntax or encoding error); both are total
functions of the filesystem, so no exception reaches the caller. -/
theorem extractor_error_policy (fs : FS) (p : Path)
    (h : FS.lookup fs p = none ∨
      ∃ f, FS.lookup fs p = some f ∧ f.pyParse = none) :
    extract_symbols fs p = [] ∧ extract_module_docstring fs p = none := by
  rcases h with h | ⟨f, hf, hp⟩
  · simp [extract_symbols, extract_module_docstring, h]
  · simp [extract_symbols, extract_module_docstring, hf, hp]

/-- The filesystem of the C6 witness: one file that does not parse. -/
def fsC6 : FS := [(["proj", "bad.py"], { content := "def broken(:", pyParse := none })]

/-- Witness for C6 at a concrete unparseable file and a concrete missing
file. -/
theorem extractor_error_policy_witness :
    (FS.lookup fsC6 ["proj", "bad.py"] = none ∨
      ∃ f, FS.lookup fsC6 ["proj", "bad.py"] = some f ∧ f.pyParse = none)
    ∧ extract_symbols fsC6 ["proj", "bad.py"] = []
    ∧ extract_module_docstring fsC6 ["proj", "bad.py"] = none := by
  refine ⟨Or.inr ⟨_, rfl, rfl⟩, ?_⟩
  exact extractor_error_policy fsC6 ["proj", "bad.py"] (Or.inr ⟨_, rfl, rfl⟩)

/-! ## C1 -/

/-- C1: `merge_maps` with a non-None existing map carries the prior
description and placeholder flag verbatim for every current symbol whose
name is a key of the existing sections, updating only the line number;
synthesizes the `Describe <name>` placeholder for new names; and reports as
removed exactly the existing names absent from the current symbols and as
added exactly the current names absent from the existing ones. -/
theorem merge_maps_preserves_prose (ex : ParsedMapFile)
    (symbols : List ExtractedSymbol) (sp mp : Path) :
    (∀ (i : Nat) (s : ExtractedSymbol), symbols[i]? = some s →
      (∀ old, sectionsLookup ex.sections s.name = some old →
        (merge_maps (some ex) symbols sp mp).1.sections[i]? =
          some { symbol_name := s.name, symbol_kind := s.kind,
                 line_number := s.line, description := old.description,
                 is_placeholder := old.is_placeholder })
      ∧ (sectionsLookup ex.sections s.name = none →
        (merge_maps (some ex) symbols sp mp).1.sections[i]? =
          some { symbol_name := s.name, symbol_kind := s.kind,
                 line_number := s.line,
                 description := make_placeholder ("Describe " ++ s.name),
                 is_placeholder := true }))
    ∧ (∀ n, n ∈ (merge_maps (some ex) symbols sp mp).2.1 ↔
        n ∈ ex.sections.map Prod.fst ∧ n ∉ symbols.map ExtractedSymbol.name)
    ∧ (∀ n, n ∈ (merge_maps (some ex) symbols sp mp).2.2 ↔
        n ∈ symbols.map ExtractedSymbol.name ∧
          n ∉ ex.sections.map Prod.fst) := by
  refine ⟨?_, ?_, ?_⟩
  · intro i s hs
    constructor
    · intro old hold
      simp only [merge_maps, List.getElem?_map, hs, Option.map_some']
      rw [hold]
    · intro hnone
      simp only [merge_maps, List.getElem?_map, hs, Option.map_some']
      rw [hnone]
  · intro n
    simp [merge_maps, List.mem_filter, List.mem_dedup, List.mem_map]
  · intro n
    simp [merge_maps, List.mem_filter, List.mem_dedup, List.mem_map]

/-- Existing map for the C1 witness: a human-authored description for
`add`, plus a section for a deleted symbol `gone`. -/
def exC1 : ParsedMapFile :=
  { file_description := "Arithmetic helpers.",
    file_description_is_placeholder := false,
    sections :=
      [("add", { symbol_name := "add", line_number := 4,
                 description := "Adds two numbers, carefully.",
                 is_placeholder := false }),
       ("gone", { symbol_name := "gone", line_number := 30,
                  description := "Stale prose.", is_placeholder := false })] }

/-- Current symbols for the C1 witness: `add` moved to line 9, `mul` is
new. -/
def symsC1 : List ExtractedSymbol :=
  [{ name := "add", kind := .FUNCTION, line := 9 },
   { name := "mul", kind := .FUNCTION, line := 21 }]

/-- Witness for C1: carried prose for `add` with the updated line, a fresh
placeholder for `mul`, `gone` removed and `mul` added. -/
theorem merge_maps_preserves_prose_witness :
    ((merge_maps (some exC1) symsC1 ["ops.py"] ["ops.md"]).1.sections[0]? =
      some { symbol_name := "add", symbol_kind := .FUNCTION, line_number := 9,
             description := "Adds two numbers, carefully.",
             is_placeholder := false })
    ∧ ((merge_maps (some exC1) symsC1 ["ops.py"] ["ops.md"]).1.sections[1]? =
      some { symbol_name := "mul", symbol_kind := .FUNCTION,
             line_number := 21,
             description := make_placeholder "Describe mul",
             is_placeholder := true })
    ∧ ("gone" ∈ (merge_maps (some exC1) symsC1 ["ops.py"] ["ops.md"]).2.1)
    ∧ ("mul" ∈ (merge_maps (some exC1) symsC1 ["ops.py"] ["ops.md"]).2.2) := by
  have h := merge_maps_preserves_prose exC1 symsC1 ["ops.py"] ["ops.md"]
  refine ⟨?_, ?_, ?_, ?_⟩
  · exact (h.1 0 _ rfl).1 _ rfl
  · exact (h.1 1 _ rfl).2 rfl
  · exact (h.2.1 "gone").mpr (by decide)
  · exact (h.2.2 "mul").mpr (by decide)

/-! ## C7 (amended direction) -/

/-- C7 amended: every Section produced by `merge_maps` has its
`is_placeholder` flag equal to the sentinel prefix/suffix test
`is_placeholder` applied to its description, provided the existing parsed
sections already satisfy that equation (which `parse_existing_map`
establishes by computing every parsed flag with the same test). -/
theorem merge_maps_placeholder_flag (existing : Option ParsedMapFile)
    (symbols : List ExtractedSymbol) (sp mp : Path)
    (hex : ∀ ex, existing = some ex →
      ∀ e ∈ ex.sections, e.2.is_placeholder = is_placeholder e.2.description) :
    ∀ sec ∈ (merge_maps existing symbols sp mp).1.sections,
      sec.is_placeholder = is_placeholder sec.description := by
  intro sec hsec
  match hx : existing with
  | none =>
    subst hx
    simp only [merge_maps, List.mem_map] at hsec
    obtain ⟨s, _, rfl⟩ := hsec
    simp [is_placeholder_make]
  | some ex =>
    subst hx
    simp only [merge_maps, List.mem_map] at hsec
    obtain ⟨s, _, rfl⟩ := hsec
    cases hold : sectionsLookup ex.sections s.name with
    | none => simp [hold, is_placeholder_make]
    | some old =>
      have hmem : ∃ e ∈ ex.sections, e.2 = old := by
        unfold sectionsLookup at hold
        obtain ⟨e, he1, he2⟩ := Option.map_eq_some'.mp hold
        exact ⟨e, List.mem_of_find?_eq_some he1, he2⟩
      obtain ⟨e, hemem, he⟩ := hmem
      simp only [hold]
      have := hex ex rfl e hemem
      rw [he] at this
      simpa using this

/-- Witness for C7 amended: a merge over an existing map whose parsed flags
satisfy the predicate equation. -/
theorem merge_maps_placeholder_flag_witness :
    (∀ ex, some exC1 = some ex →
      ∀ e ∈ ex.sections, e.2.is_placeholder = is_placeholder e.2.description)
    ∧ ∀ sec ∈ (merge_maps (some exC1) symsC1 ["ops.py"] ["ops.md"]).1.sections,
        sec.is_placeholder = is_placeholder sec.description := by
  refine ⟨?_, ?_⟩
  · intro ex hx
    cases hx
    decide
  · exact merge_maps_placeholder_flag (some exC1) symsC1 ["ops.py"] ["ops.md"]
      (by intro ex hx; cases hx; decide)

/-! ## Membership scaffolding for the validator -/

lemma mem_mdFilesUnder (fs : FS) (mapDir mdPath : Path) (f : FSFile)
    (hfs : (mdPath, f) ∈ fs) (hund : isUnder mapDir mdPath = true)
    (hmd : strEnds (Path.name mdPath) ".md" = true) :
    (mdPath, f) ∈ mdFilesUnder fs mapDir :=
  List.mem_filter.mpr ⟨hfs, by simp [hund, hmd]⟩

lemma mem_check_code_links (fs : FS) (mapDir mdPath : Path) (f : FSFile)
    (ln : Nat) (line : String) (m : CodeLinkMatch) (e : ValidationError)
    (hfs : (mdPath, f) ∈ fs) (hund : isUnder mapDir mdPath = true)
    (hmd : strEnds (Path.name mdPath) ".md" = true)
    (hvl : (ln, line) ∈ visibleLines f.content)
    (hm : m ∈ codeLinkMatches line)
    (he : e ∈ codeLinkErrorsForMatch fs mapDir mdPath ln line m) :
    e ∈ check_code_links fs mapDir := by
  unfold check_code_links
  refine List.mem_flatMap.mpr ⟨(mdPath, f), mem_mdFilesUnder fs mapDir mdPath f hfs hund hmd, ?_⟩
  refine List.mem_flatMap.mpr ⟨(ln, line), hvl, ?_⟩
  exact List.mem_append_left _ (List.mem_flatMap.mpr ⟨m, hm, he⟩)

lemma mem_check_file_links (fs : FS) (mapDir mdPath : Path) (f : FSFile)
    (ln : Nat) (line : String) (m : FileLinkMatch) (e : ValidationError)
    (hfs : (mdPath, f) ∈ fs) (hund : isUnder mapDir mdPath = true)
    (hmd : strEnds (Path.name mdPath) ".md" = true)
    (hvl : (ln, line) ∈ visibleLines f.content)
    (hm : m ∈ fileLinkMatches line)
    (he : e ∈ fileLinkErrorsForMatch fs mapDir mdPath ln line m) :
    e ∈ check_file_links fs mapDir := by
  unfold check_file_links
  refine List.mem_flatMap.mpr ⟨(mdPath, f), mem_mdFilesUnder fs mapDir mdPath f hfs hund hmd, ?_⟩
  refine List.mem_flatMap.mpr ⟨(ln, line), hvl, ?_⟩
  exact List.mem_flatMap.mpr ⟨m, hm, he⟩

/-! ## C4 -/

/-- C4: the code-link drift tolerance is exactly five lines inclusive.  For
a CODE_LINK match on a visible line outside inline code whose target file
exists, if some symbol of that name sits within five lines of the pinned
line the match contributes no error; if the file contains the symbol but
every occurrence is six or more lines away, the match contributes exactly
one broken_symbol error whose message contains "symbol not at line", and
that error is emitted by `check_code_links`. -/
theorem code_link_drift_tolerance (fs : FS) (mapDir mdPath : Path)
    (f : FSFile) (ln : Nat) (line : String) (m : CodeLinkMatch)
    (hfs : (mdPath, f) ∈ fs) (hund : isUnder mapDir mdPath = true)
    (hmd : strEnds (Path.name mdPath) ".md" = true)
    (hvl : (ln, line) ∈ visibleLines f.content)
    (hm : m ∈ codeLinkMatches line)
    (hctx : isInCodeContext line m.start = false)
    (hex : fs.fileExists (resolveRel mdPath.dropLast m.path) = true) :
    ((∃ s ∈ get_symbols fs (resolveRel mdPath.dropLast m.path),
        s.name = m.symbol ∧ ((s.line : Int) - m.lineno).natAbs ≤ 5) →
      codeLinkErrorsForMatch fs mapDir mdPath ln line m = [])
    ∧ ((symbol_exists fs (resolveRel mdPath.dropLast m.path) m.symbol = true) →
      (∀ s ∈ get_symbols fs (resolveRel mdPath.dropLast m.path),
        s.name = m.symbol → 6 ≤ ((s.line : Int) - m.lineno).natAbs) →
      ∃ e, codeLinkErrorsForMatch fs mapDir mdPath ln line m = [e]
        ∧ e.error_type = "broken_symbol"
        ∧ strContains e.message "symbol not at line" = true
        ∧ e ∈ check_code_links fs mapDir) := by
  constructor
  · rintro ⟨s, hsmem, hname, hdist⟩
    have hsym : symbol_exists fs (resolveRel mdPath.dropLast m.path) m.symbol = true := by
      unfold symbol_exists
      exact List.any_eq_true.mpr ⟨s, hsmem, by simp [hname]⟩
    have hatl : symbol_at_line fs (resolveRel mdPath.dropLast m.path) m.symbol m.lineno 5 = true := by
      unfold symbol_at_line
      exact List.any_eq_true.mpr ⟨s, hsmem, by simp [hname, hdist]⟩
    simp [codeLinkErrorsForMatch, hctx, hex, hsym, hatl]
  · intro hsym hfar
    have hatl : symbol_at_line fs (resolveRel mdPath.dropLast m.path) m.symbol m.lineno 5 = false := by
      unfold symbol_at_line
      refine List.any_eq_false.mpr ?_
      intro s hsmem
      by_cases hname : s.name = m.symbol
      · have := hfar s hsmem hname
        simp only [Bool.and_eq_true, decide_eq_true_eq]
        rintro ⟨-, hle⟩
        omega
      · simp [hname]
    refine ⟨{ file := pathStr (relativeTo mdPath mapDir), line := ln,
              message := "[`" ++ m.symbol ++ "`](" ++ m.path ++ "#L"
                ++ toString m.lineno ++ ") -> symbol not at line "
                ++ toString m.lineno,
              error_type := "broken_symbol" }, ?_, rfl, ?_, ?_⟩
    · simp [codeLinkErrorsForMatch, hctx, hex, hsym, hatl]
    · refine strContains_of_parts
        ("[`" ++ m.symbol ++ "`](" ++ m.path ++ "#L" ++ toString m.lineno ++ ") -> ")
        "symbol not at line" (" " ++ toString m.lineno) _ ?_
      have hsplit : (") -> symbol not at line ").data =
          (") -> ").data ++ ("symbol not at line").data ++ (" ").data := rfl
      simp [String.data_append, List.append_assoc]
    · refine mem_check_code_links fs mapDir mdPath f ln line m _ hfs hund hmd hvl hm ?_
      rw [show codeLinkErrorsForMatch fs mapDir mdPath ln line m = [_] from ?_]
      · exact List.mem_singleton.mpr rfl
      · simp [codeLinkErrorsForMatch, hctx, hex, hsym, hatl]

/-- Filesystem for the C4 witness: a map document linking `add` at line 10
while the symbol really sits at line 12 (a drift of two lines). -/
def fsC4 : FS :=
  [(["docs", "mod.md"],
    { content := "[`add`](../src/ops.py#L10)", pyParse := none }),
   (["src", "ops.py"],
    { content := "def add(a, b):\n    return a + b",
      pyParse := some { docstring := none,
                        body := [.funcDef "add" 12 false none "(a, b)" []] } })]

/-- The CODE_LINK match of the C4 witness line. -/
def mC4 : CodeLinkMatch :=
  { start := 0, raw := "[`add`](../src/ops.py#L10)", symbol := "add",
    path := "../src/ops.py", lineno := 10 }

/-- Witness for C4: within the five-line tolerance no error is
contributed. -/
theorem code_link_drift_tolerance_witness :
    ((["docs", "mod.md"],
        ({ content := "[`add`](../src/ops.py#L10)", pyParse := none } : FSFile)) ∈ fsC4)
    ∧ isUnder ["docs"] ["docs", "mod.md"] = true
    ∧ strEnds (Path.name ["docs", "mod.md"]) ".md" = true
    ∧ ((1, "[`add`](../src/ops.py#L10)") ∈
        visibleLines ("[`add`](../src/ops.py#L10)" : String))
    ∧ (mC4 ∈ codeLinkMatches "[`add`](../src/ops.py#L10)")
    ∧ isInCodeContext "[`add`](../src/ops.py#L10)" mC4.start = false
    ∧ fsC4.fileExists (resolveRel (["docs", "mod.md"] : Path).dropLast mC4.path) = true
    ∧ codeLinkErrorsForMatch fsC4 ["docs"] ["docs", "mod.md"] 1
        "[`add`](../src/ops.py#L10)" mC4 = [] := by
  refine ⟨List.mem_cons_self _ _, by decide, by decide, by decide, by decide,
    by decide, by decide, ?_⟩
  exact (code_link_drift_tolerance fsC4 ["docs"] ["docs", "mod.md"]
    { content := "[`add`](../src/ops.py#L10)", pyParse := none } 1
    "[`add`](../src/ops.py#L10)" mC4 (List.mem_cons_self _ _) (by decide)
    (by decide) (by decide) (by decide) (by decide) (by decide)).1
    ⟨{ name := "add", line := 12, kind := "function" }, by decide, rfl, by decide⟩

/-! ## C9 -/

/-- C9: the extractor and the validator symbol lister disagree on async
functions.  If a file declares `s` with `async def` at top level and no
non-async `def` or `class` named `s` appears anywhere in it, then
`extract_symbols` lists `s` (so the generator emits a code link for it)
while `symbol_exists` is false, and any CODE_LINK match for `s` resolving
to that file contributes exactly one broken_symbol error whose message
contains "symbol not found". -/
theorem async_symbols_disagreement (fs : FS) (srcPath : Path) (f : FSFile)
    (mod : PyModule) (s : String) (l : Nat) (d : Option String)
    (sig : String) (body : List PyStmt)
    (hlk : FS.lookup fs srcPath = some f)
    (hparse : f.pyParse = some mod)
    (htop : PyStmt.funcDef s l true d sig body ∈ mod.body)
    (honly : ∀ sym ∈ get_symbols fs srcPath, sym.name ≠ s) :
    (∃ es ∈ extract_symbols fs srcPath,
        es.name = s ∧ es.kind = SymbolKind.FUNCTION ∧ es.line = l)
    ∧ symbol_exists fs srcPath s = false
    ∧ (∀ (mapDir mdPath : Path) (ln : Nat) (line : String)
        (m : CodeLinkMatch),
        isInCodeContext line m.start = false →
        m.symbol = s →
        resolveRel mdPath.dropLast m.path = srcPath →
        ∃ e, codeLinkErrorsForMatch fs mapDir mdPath ln line m = [e]
          ∧ e.error_type = "broken_symbol"
          ∧ strContains e.message "symbol not found" = true) := by
  have hexists : FS.fileExists fs srcPath = true := by
    simp [FS.fileExists, hlk]
  have hsym : symbol_exists fs srcPath s = false := by
    unfold symbol_exists
    refine List.any_eq_false.mpr ?_
    intro sym hsm
    simpa using honly sym hsm
  refine ⟨?_, hsym, ?_⟩
  · refine ⟨{ name := s, kind := .FUNCTION, line := l, parent := none,
              docstring := d, signature := some sig }, ?_, rfl, rfl, rfl⟩
    unfold extract_symbols
    rw [hlk]
    simp only [hparse]
    unfold extractSymbolsOfModule
    exact List.mem_flatMap.mpr ⟨_, htop, by simp⟩
  · intro mapDir mdPath ln line m hctx hname htgt
    refine ⟨{ file := pathStr (relativeTo mdPath mapDir), line := ln,
              message := "[`" ++ m.symbol ++ "`](" ++ m.path ++ "#L"
                ++ toString m.lineno ++ ") -> symbol not found",
              error_type := "broken_symbol" }, ?_, rfl, ?_⟩
    · simp [codeLinkErrorsForMatch, hctx, htgt, hexists, hsym, hname]
    · refine strContains_of_parts
        ("[`" ++ m.symbol ++ "`](" ++ m.path ++ "#L" ++ toString m.lineno
          ++ ") -> ") "symbol not found" "" _ ?_
      have hsplit : (") -> symbol not found").data =
          (") -> ").data ++ ("symbol not found").data := rfl
      simp [String.data_append, List.append_assoc]

/-- Filesystem for the C9 witness: `fetch` is declared only with
`async def`; the map document carries the exact link the generator would
emit for it. -/
def fsC9 : FS :=
  [(["src", "net.py"],
    { content := "async def fetch(url):\n    ...",
      pyParse := some { docstring := none,
                        body := [.funcDef "fetch" 1 true none "(url)" []] } })]

/-- The CODE_LINK match of the C9 witness line. -/
def mC9 : CodeLinkMatch :=
  { start := 0, raw := "[`fetch`](../src/net.py#L1)", symbol := "fetch",
    path := "../src/net.py", lineno := 1 }

/-- Witness for C9 at the concrete async-only file. -/
theorem async_symbols_disagreement_witness :
    (FS.lookup fsC9 ["src", "net.py"] =
      some { content := "async def fetch(url):\n    ...",
             pyParse := some { docstring := none,
                               body := [.funcDef "fetch" 1 true none "(url)" []] } })
    ∧ (PyStmt.funcDef "fetch" 1 true none "(url)" [] ∈
        ({ docstring := none,
           body := [.funcDef "fetch" 1 true none "(url)" []] } : PyModule).body)
    ∧ (∀ sym ∈ get_symbols fsC9 ["src", "net.py"], sym.name ≠ "fetch")
    ∧ symbol_exists fsC9 ["src", "net.py"] "fetch" = false
    ∧ (∃ es ∈ extract_symbols fsC9 ["src", "net.py"],
        es.name = "fetch" ∧ es.kind = SymbolKind.FUNCTION ∧ es.line = 1)
    ∧ (∃ e, codeLinkErrorsForMatch fsC9 ["docs"] ["docs", "net.md"] 1
        "[`fetch`](../src/net.py#L1)" mC9 = [e]
        ∧ e.error_type = "broken_symbol"
        ∧ strContains e.message "symbol not found" = true) := by
  have h := async_symbols_disagreement fsC9 ["src", "net.py"]
    { content := "async def fetch(url):\n    ...",
      pyParse := some { docstring := none,
                        body := [.funcDef "fetch" 1 true none "(url)" []] } }
    { docstring := none, body := [.funcDef "fetch" 1 true none "(url)" []] }
    "fetch" 1 none "(url)" [] rfl rfl (List.mem_cons_self _ _) (by decide)
  exact ⟨rfl, List.mem_cons_self _ _, by decide, h.2.1, h.1,
    h.2.2 ["docs"] ["docs", "net.md"] 1 "[`fetch`](../src/net.py#L1)" mC9
      (by decide) rfl (by decide)⟩

/-! ## C8 -/

/-- C8 (amended): for a FILE_LINK match on a visible line outside inline
code whose path is not an external URL, which is not a symbol code link,
and whose path does not end in `.py` (the amendment: such links are
silently skipped and left to the code-link checker, which only inspects
backticked symbol links), `check_file_links` resolves the path against the
containing file's directory and emits one broken_link error at that line
whenever the target does not exist. -/
theorem file_link_check_completeness (fs : FS) (mapDir mdPath : Path)
    (f : FSFile) (ln : Nat) (line : String) (m : FileLinkMatch)
    (hfs : (mdPath, f) ∈ fs) (hund : isUnder mapDir mdPath = true)
    (hmd : strEnds (Path.name mdPath) ".md" = true)
    (hvl : (ln, line) ∈ visibleLines f.content)
    (hm : m ∈ fileLinkMatches line)
    (hctx : isInCodeContext line m.start = false)
    (hu1 : strStarts m.path "http://" = false)
    (hu2 : strStarts m.path "https://" = false)
    (hu3 : strStarts m.path "mailto:" = false)
    (hsl : (strStarts m.text "`" && strContains m.raw "#L") = false)
    (hpy : strEnds m.path ".py" = false)
    (hmiss : fs.fileExists (resolveRel mdPath.dropLast m.path) = false) :
    ∃ e, fileLinkErrorsForMatch fs mapDir mdPath ln line m = [e]
      ∧ e.error_type = "broken_link" ∧ e.line = ln
      ∧ e ∈ check_file_links fs mapDir := by
  have hsingle : fileLinkErrorsForMatch fs mapDir mdPath ln line m =
      [{ file := pathStr (relativeTo mdPath mapDir), line := ln,
         message := "[" ++ m.text ++ "](" ++ m.path ++ ") -> file not found",
         error_type := "broken_link" }] := by
    simp [fileLinkErrorsForMatch, hctx, hu1, hu2, hu3, hsl, hpy, hmiss]
  refine ⟨_, hsingle, rfl, rfl, ?_⟩
  refine mem_check_file_links fs mapDir mdPath f ln line m _ hfs hund hmd hvl hm ?_
  rw [hsingle]
  exact List.mem_singleton.mpr rfl

/-- Filesystem of the C8 witness: a map document with a dead markdown
link. -/
def fsC8 : FS :=
  [(["m", "doc.md"], { content := "[see](missing.md)", pyParse := none })]

/-- The FILE_LINK match of the C8 witness line. -/
def mC8 : FileLinkMatch :=
  { start := 0, raw := "[see](missing.md)", text := "see",
    path := "missing.md" }

/-- Witness for C8 (amended) at the concrete dead link. -/
theorem file_link_check_completeness_witness :
    ((["m", "doc.md"],
      ({ content := "[see](missing.md)", pyParse := none } : FSFile)) ∈ fsC8)
    ∧ (mC8 ∈ fileLinkMatches "[see](missing.md)")
    ∧ fsC8.fileExists (resolveRel (["m", "doc.md"] : Path).dropLast mC8.path)
        = false
    ∧ ∃ e, fileLinkErrorsForMatch fsC8 ["m"] ["m", "doc.md"] 1
        "[see](missing.md)" mC8 = [e]
      ∧ e.error_type = "broken_link" ∧ e.line = 1
      ∧ e ∈ check_file_links fsC8 ["m"] := by
  refine ⟨List.mem_cons_self _ _, by decide, by decide, ?_⟩
  exact file_link_check_completeness fsC8 ["m"] ["m", "doc.md"]
    { content := "[see](missing.md)", pyParse := none } 1 "[see](missing.md)"
    mC8 (List.mem_cons_self _ _) (by decide) (by decide) (by decide)
    (by decide) (by decide) (by decide) (by decide) (by decide) (by decide)
    (by decide) (by decide)

/-- Filesystem of the C8 counterexample: a map document with a dead
non-symbol link whose path ends in `.py`. -/
def fsC8py : FS :=
  [(["m", "doc.md"], { content := "[see](../gone.py)", pyParse := none })]

/-- The FILE_LINK match of the C8 counterexample line. -/
def mC8py : FileLinkMatch :=
  { start := 0, raw := "[see](../gone.py)", text := "see",
    path := "../gone.py" }

/-- Counterexample to C8 as stated: the link `[see](../gone.py)` is a
FILE_LINK match on a visible line outside inline code, its path is not an
external URL, it is not a symbol code link (no backticked text), and its
resolved target does not exist — yet `check_file_links` emits no error at
all, because any path ending in `.py` is skipped (and `check_code_links`
only inspects backticked links, so nothing else reports it either). -/
theorem file_link_py_skip_counterexample :
    (mC8py ∈ fileLinkMatches "[see](../gone.py)")
    ∧ isInCodeContext "[see](../gone.py)" mC8py.start = false
    ∧ strStarts mC8py.path "http://" = false
    ∧ strStarts mC8py.path "https://" = false
    ∧ strStarts mC8py.path "mailto:" = false
    ∧ (strStarts mC8py.text "`" && strContains mC8py.raw "#L") = false
    ∧ fsC8py.fileExists
        (resolveRel (["m", "doc.md"] : Path).dropLast mC8py.path) = false
    ∧ ((1, "[see](../gone.py)") ∈
        visibleLines ("[see](../gone.py)" : String))
    ∧ check_file_links fsC8py ["m"] = []
    ∧ check_code_links fsC8py ["m"] = [] := by
  decide

/-! ## C5 -/

/-- The tier classification of `check_size_limits`: ARCHITECTURE.md at the
top of the map directory (limit 500), direct `*.md` children of `domains`
(limit 300), `*.md` files anywhere below `modules` (limit 200). -/
def tierOf (mapDir p : Path) : Option (String × Nat) :=
  if p = mapDir ++ ["ARCHITECTURE.md"] then some ("L0", SIZE_LIMITS_L0)
  else if isDomainDoc mapDir p then some ("L1", SIZE_LIMITS_L1)
  else if isModuleDoc mapDir p then some ("L2", SIZE_LIMITS_L2)
  else none

/-- Everything `check_size_limits` can say about the file at `p`: the L0
lookup contribution when `p` is the architecture document, plus the L1 and
L2 contributions of its entry. -/
def sizeErrorsFor (fs : FS) (mapDir p : Path) (f : FSFile) :
    List ValidationError :=
  (if p = mapDir ++ ["ARCHITECTURE.md"] then l0SizeErrors fs mapDir else [])
    ++ l1SizeErrorsForEntry mapDir p f ++ l2SizeErrorsForEntry mapDir p f

lemma prefix_heads_ne {A : Path} {a b : String} {r : Path}
    (hne : a ≠ b) : (A ++ [a]).isPrefixOf (A ++ [b] ++ r) = false := by
  by_contra hcon
  rw [Bool.not_eq_false, List.isPrefixOf_iff_prefix] at hcon
  obtain ⟨t, ht⟩ := hcon
  simp only [List.append_assoc] at ht
  have h2 := List.append_cancel_left ht
  simp only [List.cons_append, List.nil_append, List.cons.injEq] at h2
  exact hne h2.1

/-- C5: a markdown file whose line count is exactly its tier limit yields
no size_limit error, and one line over yields exactly one size_limit error
(the other tiers contribute nothing for that file) whose message names the
actual line count and the limit, and which `check_size_limits` emits. -/
theorem size_limit_boundary (fs : FS) (mapDir p : Path) (f : FSFile)
    (tname : String) (limit : Nat)
    (hlk : FS.lookup fs p = some f) (hmem : (p, f) ∈ fs)
    (htier : tierOf mapDir p = some (tname, limit)) :
    (lineCountOf f = limit → sizeErrorsFor fs mapDir p f = [])
    ∧ (lineCountOf f = limit + 1 →
      ∃ e, sizeErrorsFor fs mapDir p f = [e]
        ∧ e ∈ check_size_limits fs mapDir
        ∧ e.error_type = "size_limit"
        ∧ strContains e.message (toString (lineCountOf f)) = true
        ∧ strContains e.message (toString limit) = true) := by
  unfold tierOf at htier
  split at htier
  case isTrue harch =>
    -- L0: the architecture document
    injection htier with hh
    injection hh with h1 h2
    subst h1
    subst h2
    have hlk' : FS.lookup fs (mapDir ++ ["ARCHITECTURE.md"]) = some f :=
      harch ▸ hlk
    have hdom : isDomainDoc mapDir p = false := by
      subst harch
      simp [isDomainDoc]
    have hmod : isModuleDoc mapDir p = false := by
      subst harch
      simp [isModuleDoc, isUnder]
    constructor
    · intro hcount
      unfold sizeErrorsFor
      rw [if_pos harch]
      simp [l0SizeErrors, l1SizeErrorsForEntry, l2SizeErrorsForEntry,
        hdom, hmod, hlk', hcount]
    · intro hcount
      have hl0 : l0SizeErrors fs mapDir =
          [{ file := "ARCHITECTURE.md", line := 0,
             message := "Exceeds L0 limit: " ++ toString (lineCountOf f)
               ++ " lines > " ++ toString SIZE_LIMITS_L0,
             error_type := "size_limit" }] := by
        simp [l0SizeErrors, hlk', hcount, SIZE_LIMITS_L0]
      refine ⟨{ file := "ARCHITECTURE.md", line := 0,
                message := "Exceeds L0 limit: " ++ toString (lineCountOf f)
                  ++ " lines > " ++ toString SIZE_LIMITS_L0,
                error_type := "size_limit" }, ?_, ?_, rfl, ?_, ?_⟩
      · unfold sizeErrorsFor
        rw [if_pos harch, hl0]
        simp [l1SizeErrorsForEntry, l2SizeErrorsForEntry, hdom, hmod]
      · unfold check_size_limits
        rw [hl0]
        exact List.mem_append_left _
          (List.mem_append_left _ (List.mem_singleton.mpr rfl))
      · exact strContains_of_parts ("Exceeds L0 limit: ")
          (toString (lineCountOf f))
          (" lines > " ++ toString SIZE_LIMITS_L0) _ (by simp)
      · exact strContains_of_parts
          ("Exceeds L0 limit: " ++ toString (lineCountOf f) ++ " lines > ")
          (toString SIZE_LIMITS_L0) "" _ (by simp)
  case isFalse harch =>
  split at htier
  case isTrue hdom =>
    -- L1: a domain document
    injection htier with hh
    injection hh with h1 h2
    subst h1
    subst h2
    have hmod : isModuleDoc mapDir p = false := by
      have hdom2 := hdom
      unfold isDomainDoc at hdom2
      rw [Bool.and_eq_true, Bool.and_eq_true] at hdom2
      obtain ⟨⟨hpre, hlen⟩, -⟩ := hdom2
      rw [decide_eq_true_eq] at hlen
      obtain ⟨t, ht⟩ := List.isPrefixOf_iff_prefix.mp hpre
      have hlent : t.length = 1 := by
        have hc := congrArg List.length ht
        simp at hc
        omega
      obtain ⟨nm, rfl⟩ : ∃ nm, t = [nm] := by
        match t, hlent with
        | [nm], _ => exact ⟨nm, rfl⟩
      unfold isModuleDoc isUnder
      rw [← ht, prefix_heads_ne (by decide)]
      rfl
    constructor
    · intro hcount
      unfold sizeErrorsFor
      rw [if_neg harch]
      simp [l1SizeErrorsForEntry, l2SizeErrorsForEntry, hdom, hmod, hcount]
    · intro hcount
      have hl1 : l1SizeErrorsForEntry mapDir p f =
          [{ file := "domains/" ++ Path.name p, line := 0,
             message := "Exceeds L1 limit: " ++ toString (lineCountOf f)
               ++ " lines > " ++ toString SIZE_LIMITS_L1,
             error_type := "size_limit" }] := by
        simp [l1SizeErrorsForEntry, hdom, hcount, SIZE_LIMITS_L1]
      refine ⟨{ file := "domains/" ++ Path.name p, line := 0,
                message := "Exceeds L1 limit: " ++ toString (lineCountOf f)
                  ++ " lines > " ++ toString SIZE_LIMITS_L1,
                error_type := "size_limit" }, ?_, ?_, rfl, ?_, ?_⟩
      · unfold sizeErrorsFor
        rw [if_neg harch, hl1]
        simp [l2SizeErrorsForEntry, hmod]
      · unfold check_size_limits
        refine List.mem_append_left _ (List.mem_append_right _ ?_)
        refine List.mem_flatMap.mpr ⟨(p, f), hmem, ?_⟩
        rw [hl1]
        exact List.mem_singleton.mpr rfl
      · exact strContains_of_parts ("Exceeds L1 limit: ")
          (toString (lineCountOf f))
          (" lines > " ++ toString SIZE_LIMITS_L1) _ (by simp)
      · exact strContains_of_parts
          ("Exceeds L1 limit: " ++ toString (lineCountOf f) ++ " lines > ")
          (toString SIZE_LIMITS_L1) "" _ (by simp)
  case isFalse hdom =>
  split at htier
  case isTrue hmod =>
    -- L2: a module document
    injection htier with hh
    injection hh with h1 h2
    subst h1
    subst h2
    constructor
    · intro hcount
      unfold sizeErrorsFor
      rw [if_neg harch]
      simp [l1SizeErrorsForEntry, l2SizeErrorsForEntry, hdom, hmod, hcount]
    · intro hcount
      have hl2 : l2SizeErrorsForEntry mapDir p f =
          [{ file := pathStr (relativeTo p mapDir), line := 0,
             message := "Exceeds L2 limit: " ++ toString (lineCountOf f)
               ++ " lines > " ++ toString SIZE_LIMITS_L2,
             error_type := "size_limit" }] := by
        simp [l2SizeErrorsForEntry, hmod, hcount, SIZE_LIMITS_L2]
      refine ⟨{ file := pathStr (relativeTo p mapDir), line := 0,
                message := "Exceeds L2 limit: " ++ toString (lineCountOf f)
                  ++ " lines > " ++ toString SIZE_LIMITS_L2,
                error_type := "size_limit" }, ?_, ?_, rfl, ?_, ?_⟩
      · unfold sizeErrorsFor
        rw [if_neg harch, hl2]
        simp [l1SizeErrorsForEntry, hdom]
      · unfold check_size_limits
        refine List.mem_append_right _ ?_
        refine List.mem_flatMap.mpr ⟨(p, f), hmem, ?_⟩
        rw [hl2]
        exact List.mem_singleton.mpr rfl
      · exact strContains_of_parts ("Exceeds L2 limit: ")
          (toString (lineCountOf f))
          (" lines > " ++ toString SIZE_LIMITS_L2) _ (by simp)
      · exact strContains_of_parts
          ("Exceeds L2 limit: " ++ toString (lineCountOf f) ++ " lines > ")
          (toString SIZE_LIMITS_L2) "" _ (by simp)
  case isFalse hmod =>
    cases htier

/-- A module document of exactly 200 lines (199 newlines). -/
def contentExactC5 : String := String.mk (List.replicate 199 newlineChar)

/-- A module document of 201 lines (200 newlines). -/
def contentOverC5 : String := String.mk (List.replicate 200 newlineChar)

/-- Filesystem of the C5 witness: one module document at its limit and one
a single line over. -/
def fsC5 : FS :=
  [(["map", "modules", "core", "big.md"],
    { content := contentExactC5, pyParse := none }),
   (["map", "modules", "core", "over.md"],
    { content := contentOverC5, pyParse := none })]

/-- Witness for C5 at the L2 boundary: 200 lines pass, 201 lines produce
exactly one size_limit error naming 201 and 200. -/
theorem size_limit_boundary_witness :
    (tierOf ["map"] ["map", "modules", "core", "big.md"] =
      some ("L2", SIZE_LIMITS_L2))
    ∧ lineCountOf { content := contentExactC5, pyParse := none } =
        SIZE_LIMITS_L2
    ∧ sizeErrorsFor fsC5 ["map"] ["map", "modules", "core", "big.md"]
        { content := contentExactC5, pyParse := none } = []
    ∧ lineCountOf { content := contentOverC5, pyParse := none } =
        SIZE_LIMITS_L2 + 1
    ∧ (∃ e, sizeErrorsFor fsC5 ["map"] ["map", "modules", "core", "over.md"]
          { content := contentOverC5, pyParse := none } = [e]
        ∧ e ∈ check_size_limits fsC5 ["map"]
        ∧ e.error_type = "size_limit"
        ∧ strContains e.message
            (toString (lineCountOf
              { content := contentOverC5, pyParse := none })) = true
        ∧ strContains e.message (toString SIZE_LIMITS_L2) = true) := by
  refine ⟨by decide, by decide, ?_, by decide, ?_⟩
  · exact (size_limit_boundary fsC5 ["map"] ["map", "modules", "core", "big.md"]
      { content := contentExactC5, pyParse := none } "L2" SIZE_LIMITS_L2 rfl
      (List.mem_cons_self _ _) (by decide)).1 (by decide)
  · exact (size_limit_boundary fsC5 ["map"] ["map", "modules", "core", "over.md"]
      { content := contentOverC5, pyParse := none } "L2" SIZE_LIMITS_L2 rfl
      (List.mem_cons_of_mem _ (List.mem_cons_self _ _)) (by decide)).2
      (by decide)

/-! ## Templates (code-mapping/scripts/generate/templates.py)

The template files live under the skill directory and are not part of
src/, so their contents are abstract here: a template store maps a
template name to its chunk list. -/

/-- One chunk of a template: literal text or a substitution marker. -/
inductive TChunk where
  | lit (s : String)
  | tvar (name : String)
deriving Repr, DecidableEq

/-- Modelled from the spec: the named template files (README.md,
ARCHITECTURE.md, domain.md, module.md) are not under src/; a store gives
each name its parsed chunk list. -/
def TemplateStore := String → List TChunk

/-- The substitution markers a template references. -/
def templateVars (t : List TChunk) : List String :=
  t.filterMap fun c =>
    match c with
    | .tvar n => some n
    | .lit _ => none

/-- Keyword-argument lookup. -/
def subsLookup (subs : List (String × String)) (n : String) : Option String :=
  (List.find? (fun e => e.1 = n) subs).map (·.2)

/-- `string.Template.substitute`: literal, non-recursive; `none` models the
`KeyError` raised on a marker without a supplied value. -/
def substituteTemplate (t : List TChunk) (subs : List (String × String)) :
    Option String :=
  match t with
  | [] => some ""
  | .lit s :: rest => (substituteTemplate rest subs).map (s ++ ·)
  | .tvar n :: rest =>
    match subsLookup subs n with
    | none => none
    | some v => (substituteTemplate rest subs).map (v ++ ·)

/-- Modelled from the spec: `render_template` from templates.py — load the
named template, substitute, strip trailing whitespace and append exactly
one newline; a missing substitution propagates as an error. -/
def render_template (T : TemplateStore) (name : String)
    (subs : List (String × String)) : Option String :=
  (substituteTemplate (T name) subs).map (fun s => pyRstrip s ++ "\n")

/-- The store is compatible with the generator: each template only
references markers the generator supplies for it. -/
def TemplatesOK (T : TemplateStore) : Prop :=
  templateVars (T "README.md") ⊆
      ["project_name", "project_description", "domains_table"]
    ∧ templateVars (T "ARCHITECTURE.md") ⊆ ["project_name", "domains_table"]
    ∧ templateVars (T "module.md") ⊆
      ["module_id", "module_name", "module_description", "components"]
    ∧ templateVars (T "domain.md") ⊆
      ["domain_id", "domain_name", "domain_description", "modules_table",
       "dependencies"]

instance (T : TemplateStore) : Decidable (TemplatesOK T) := by
  unfold TemplatesOK
  infer_instance

/-! ## Generator data (code-mapping/scripts/generate/generator.py) -/

/-- `GeneratorConfig` from generator.py (`src_glob` is fixed at its default
`**/*.py`, modeled by the extension filter; paths are modeled as already
resolved to absolute form). -/
structure GeneratorConfig where
  src_dir : Path
  map_dir : Path
  project_name : Option String := none
  project_description : String := "<!-- TODO: Describe this project -->"
  dry_run : Bool := false

/-- `SourceModule` from generator.py. -/
structure SourceModule where
  source_path : Path
  symbols : List ExtractedSymbol
deriving Repr, DecidableEq

/-- `Domain` from generator.py. -/
structure Domain where
  name : String
  domain_id : String
  description : String
  modules : List SourceModule := []
deriving Repr, DecidableEq

/-- Python `str.lower`. -/
def pyLower (s : String) : String := String.mk (s.data.map Char.toLower)

/-- The character loop of Python `str.title`. -/
def pyTitleAux : List Char → Bool → List Char
  | [], _ => []
  | c :: cs, prevAlpha =>
    (if c.isAlpha then (if prevAlpha then c.toLower else c.toUpper) else c)
      :: pyTitleAux cs c.isAlpha
/-- Python `str.title`. -/
def pyTitle (s : String) : String := String.mk (pyTitleAux s.data false)

/-- Python `PurePath.stem`: the file name without its final suffix. -/
def pyStem (n : String) : String :=
  let parts := splitOnChar '.' n
  match parts with
  | [] => n
  | [_] => n
  | first :: restParts =>
    if first = "" && restParts.length = 1 then n
    else strJoin "." parts.dropLast

/-- `stem` of a path's file name. -/
def Path.stem (p : Path) : String := pyStem (Path.name p)

/-- Python truthiness of an optional string (None and "" are falsy). -/
def pyTruthy (o : Option String) : Bool :=
  match o with
  | none => false
  | some s => !(s = "")

/-- `x or dflt` on an optional string. -/
def pyOrStr (o : Option String) (dflt : String) : String :=
  match o with
  | none => dflt
  | some s => if s = "" then dflt else s

/-- Lexicographic comparison of component lists (the order `sorted` gives
on paths). -/
def pathLe : Path → Path → Bool
  | [], _ => true
  | _ :: _, [] => false
  | a :: as, b :: bs => if a = b then pathLe as bs else decide (a < b)

/-- Stable insertion into a sorted list. -/
def insertSorted (x : Path) : List Path → List Path
  | [] => [x]
  | y :: ys => if pathLe x y then x :: y :: ys else y :: insertSorted x ys

/-- `sorted` on paths (insertion sort; stable, like Python's sort). -/
def sortPaths : List Path → List Path
  | [] => []
  | x :: xs => insertSorted x (sortPaths xs)

/-- `"__pycache__" in str f`: some component contains the marker (the
marker has no separator, so it cannot span components). -/
def containsPycache (p : Path) : Bool :=
  p.any (fun comp => strContains comp "__pycache__")

/-- The filter of the source enumeration of `generate_maps`: a `*.py` file
below `src_dir` that is not `__init__.py` and not under a compiled-cache
directory. -/
def srcFilter (srcDir : Path) (p : Path) : Bool :=
  isUnder srcDir p && strEnds (Path.name p) ".py"
    && !(Path.name p = "__init__.py") && !containsPycache p

/-- The source-file enumeration of `generate_maps`: every `*.py` below
`src_dir`, sorted, excluding `__init__.py` and compiled-cache paths. -/
def sourceFilesOf (fs : FS) (srcDir : Path) : List Path :=
  sortPaths ((fs.map Prod.fst).filter (srcFilter srcDir))

/-- The module list of `generate_maps`: extract per file, skip files with
no symbols. -/
def modulesOf (fs : FS) (cfg : GeneratorConfig) : List SourceModule :=
  (sourceFilesOf fs cfg.src_dir).filterMap fun p =>
    let symbols := extract_symbols fs p
    if symbols.isEmpty then none
    else some { source_path := relativeTo p cfg.src_dir, symbols := symbols }

/-- `config.project_name or src_dir.name.replace("_", " ").title()`. -/
def projectNameOf (cfg : GeneratorConfig) : String :=
  pyOrStr cfg.project_name
    (pyTitle (strReplace (Path.name cfg.src_dir) "_" " "))

/-- The single hard-coded domain of `generate_maps`. -/
def domainOf (fs : FS) (cfg : GeneratorConfig) : Domain :=
  { name := projectNameOf cfg,
    domain_id := pyLower (Path.name cfg.src_dir),
    description := "<!-- TODO: Describe this domain -->",
    modules := modulesOf fs cfg }

/-- The markdown files already below `map_dir`, as map-relative paths (when
`map_dir` does not exist the set is empty, which the rglob gives anyway). -/
def existingFilesOf (fs : FS) (mapDir : Path) : List Path :=
  (mdFilesUnder fs mapDir).map (fun e => relativeTo e.1 mapDir)

/-! ## Generator renderers -/

/-- `d.description.replace("<!-- TODO: ", "").replace(" -->", "")`. -/
def stripTodoMarks (s : String) : String :=
  strReplace (strReplace s "<!-- TODO: " "") " -->" ""

/-- One row of the README domains table. -/
def domainsTableRow (d : Domain) : String :=
  "| " ++ d.name ++ " | [domains/" ++ d.domain_id ++ ".md](domains/"
    ++ d.domain_id ++ ".md) | " ++ stripTodoMarks d.description ++ " |"

/-- `_render_readme_md` from generator.py. -/
def renderReadmeMd (T : TemplateStore) (project_name project_description :
    String) (domains : List Domain) : Option String :=
  render_template T "README.md"
    [("project_name", project_name),
     ("project_description", project_description),
     ("domains_table", strJoin "\n" (domains.map domainsTableRow))]

/-- One row of the ARCHITECTURE domains table. -/
def archTableRow (d : Domain) : String :=
  "| [" ++ d.name ++ "](domains/" ++ d.domain_id ++ ".md) | "
    ++ stripTodoMarks d.description ++ " |"

/-- `_render_architecture_md` from code-mapping generator.py. -/
def renderArchitectureMd (T : TemplateStore) (project_name : String)
    (domains : List Domain) : Option String :=
  render_template T "ARCHITECTURE.md"
    [("project_name", project_name),
     ("domains_table", strJoin "\n" (domains.map archTableRow))]

/-! ## Docstring section parsing (_parse_docstring_sections) -/

/-- The three recognized docstring sections. -/
inductive DocSectionKind where
  | args
  | returns
  | raises
deriving Repr, DecidableEq

/-- The parse result of `_parse_docstring_sections`. -/
structure DocSections where
  args : List (String × String) := []
  returns : List (String × String) := []
  raises : List (String × String) := []
deriving Repr, DecidableEq

/-- A `\w` character. -/
def isWordChar (c : Char) : Bool := c.isAlphanum || c = '_'

/-- The item regex of `_parse_docstring_sections`: four leading whitespace
characters, a word, an optional parenthesized type, a colon, then the
description; when the optional group matches but no colon follows, the
engine backtracks to the no-group alternative. -/
def matchDocItem (line : String) : Option (String × String) :=
  match line.data with
  | a :: b :: c :: d :: rest =>
    if a.isWhitespace && b.isWhitespace && c.isWhitespace && d.isWhitespace
    then
      match takeWhile1 isWordChar rest with
      | none => none
      | some (nameCs, r1) =>
        let withGroup : Option (List Char) :=
          match r1.dropWhile Char.isWhitespace with
          | '(' :: r3 =>
            match takeWhile1 (fun ch => ch != ')') r3 with
            | none => none
            | some (_, r4) =>
              match expectChar ')' r4 with
              | none => none
              | some r5 => expectChar ':' r5
          | _ => none
        match withGroup with
        | some r6 =>
          some (String.mk nameCs, String.mk (r6.dropWhile Char.isWhitespace))
        | none =>
          match expectChar ':' r1 with
          | some r6 =>
            some (String.mk nameCs,
              String.mk (r6.dropWhile Char.isWhitespace))
          | none => none
    else none
  | _ => none

/-- The mutable state of the `_parse_docstring_sections` loop. -/
structure DocParseState where
  result : DocSections
  current_section : Option DocSectionKind
  current_item : Option String
  current_desc_lines : List String

/-- Append one parsed item to its section. -/
def docAppend (r : DocSections) (k : DocSectionKind)
    (item : String × String) : DocSections :=
  match k with
  | .args => { r with args := r.args ++ [item] }
  | .returns => { r with returns := r.returns ++ [item] }
  | .raises => { r with raises := r.raises ++ [item] }

/-- `flush_item`. -/
def flushItem (st : DocParseState) : DocSections :=
  match st.current_item, st.current_section with
  | some item, some k =>
    docAppend st.result k (item, pyStrip (strJoin " " st.current_desc_lines))
  | _, _ => st.result

/-- One line of the `_parse_docstring_sections` loop. -/
def docStep (st : DocParseState) (line : String) : DocParseState :=
  let stripped := pyStrip line
  if stripped = "Args:" || stripped = "Arguments:"
      || stripped = "Parameters:" then
    { result := flushItem st, current_section := some .args,
      current_item := none, current_desc_lines := [] }
  else if stripped = "Returns:" || stripped = "Return:" then
    { result := flushItem st, current_section := some .returns,
      current_item := none, current_desc_lines := [] }
  else if stripped = "Raises:" || stripped = "Raise:" then
    { result := flushItem st, current_section := some .raises,
      current_item := none, current_desc_lines := [] }
  else if strEnds stripped ":" && !(strStarts stripped " ") then
    { result := flushItem st, current_section := none,
      current_item := none, current_desc_lines := [] }
  else
    match st.current_section with
    | none => st
    | some _ =>
      match matchDocItem line with
      | some (nm, dsc) =>
        { result := flushItem st, current_section := st.current_section,
          current_item := some nm,
          current_desc_lines := if dsc = "" then [] else [dsc] }
      | none =>
        match st.current_item with
        | some _ =>
          if strStarts line "        " then
            { st with
              current_desc_lines := st.current_desc_lines ++ [pyStrip line] }
          else st
        | none => st

/-- `_parse_docstring_sections` from generator.py. -/
def parseDocstringSections (docstring : Option String) : DocSections :=
  match docstring with
  | none => {}
  | some ds =>
    flushItem ((splitOnChar newlineChar ds).foldl docStep
      { result := {}, current_section := none, current_item := none,
        current_desc_lines := [] })

/-! ## Module rendering (_render_module_md) -/

/-- First line of a string (`s.split "\n" !! 0`). -/
def firstLineOf (s : String) : String := (splitOnChar newlineChar s).headD ""

/-- First docstring line, or the Describe placeholder. -/
def docFirstOrPlaceholder (doc : Option String) (name : String) : String :=
  match doc with
  | none => make_placeholder ("Describe " ++ name)
  | some dstr =>
    if dstr = "" then make_placeholder ("Describe " ++ name)
    else firstLineOf dstr

/-- The Section record `_render_module_md` appends for a symbol: first
docstring line (or empty) as description, placeholder flag keyed to the
docstring's absence. -/
def sectionFor (sym : ExtractedSymbol) : Section :=
  { symbol_name := sym.name, symbol_kind := sym.kind,
    line_number := sym.line,
    description :=
      match sym.docstring with
      | none => ""
      | some dstr => if dstr = "" then "" else firstLineOf dstr,
    is_placeholder := !(pyTruthy sym.docstring) }

/-- A markdown table row of a parameter or exception. -/
def docTableRow (r : String × String) : String :=
  "| " ++ r.1 ++ " | " ++ r.2 ++ " |"

/-- The markdown block of one method (heading, docstring line, parameter
and raises tables with `self` filtered out, source link). -/
def methodBlock (rel_src : String) (method : ExtractedSymbol) :
    List String :=
  let sig := pyOrStr method.signature "()"
  let parsed := parseDocstringSections method.docstring
  ["#### `" ++ method.name ++ sig ++ "`", "",
   docFirstOrPlaceholder method.docstring method.name, ""]
  ++ (if parsed.args.isEmpty then []
      else ["**Parameters:**", "", "| Name | Description |",
            "|------|-------------|"]
        ++ (parsed.args.filter (fun r => !(r.1 = "self"))).map docTableRow
        ++ [""])
  ++ (if parsed.raises.isEmpty then []
      else ["**Raises:**", "", "| Exception | Description |",
            "|-----------|-------------|"]
        ++ parsed.raises.map docTableRow ++ [""])
  ++ ["[Source](" ++ rel_src ++ "#L" ++ toString method.line ++ ")", ""]

/-- The markdown block of one class with its methods. -/
def classBlock (rel_src : String) (methods : List ExtractedSymbol)
    (cls : ExtractedSymbol) : List String :=
  ["### " ++ cls.name, "", docFirstOrPlaceholder cls.docstring cls.name, ""]
  ++ (methods.filter (fun m => m.parent = some cls.name)).flatMap
      (methodBlock rel_src)

/-- The markdown block of one top-level function (no `self` filter). -/
def functionBlock (rel_src : String) (func : ExtractedSymbol) :
    List String :=
  let sig := pyOrStr func.signature "()"
  let parsed := parseDocstringSections func.docstring
  ["### `" ++ func.name ++ sig ++ "`", "",
   docFirstOrPlaceholder func.docstring func.name, ""]
  ++ (if parsed.args.isEmpty then []
      else ["**Parameters:**", "", "| Name | Description |",
            "|------|-------------|"]
        ++ parsed.args.map docTableRow ++ [""])
  ++ (if parsed.raises.isEmpty then []
      else ["**Raises:**", "", "| Exception | Description |",
            "|-----------|-------------|"]
        ++ parsed.raises.map docTableRow ++ [""])
  ++ ["[Source](" ++ rel_src ++ "#L" ++ toString func.line ++ ")", ""]

/-- The Sections `_render_module_md` accumulates, in source order: per
class its Section then its methods', then the functions'. -/
def sectionsOfModule (module : SourceModule) : List Section :=
  let classes := module.symbols.filter (fun s => s.kind == SymbolKind.CLASS)
  let functions :=
    module.symbols.filter (fun s => s.kind == SymbolKind.FUNCTION)
  let methods := module.symbols.filter (fun s => s.kind == SymbolKind.METHOD)
  classes.flatMap (fun cls =>
    sectionFor cls
      :: ((methods.filter (fun m => m.parent = some cls.name)).map
        sectionFor))
  ++ functions.map sectionFor

/-- The `components` string of `_render_module_md`. -/
def componentsOfModule (module : SourceModule) (rel_src : String) : String :=
  let classes := module.symbols.filter (fun s => s.kind == SymbolKind.CLASS)
  let functions :=
    module.symbols.filter (fun s => s.kind == SymbolKind.FUNCTION)
  let methods := module.symbols.filter (fun s => s.kind == SymbolKind.METHOD)
  strJoin "\n"
    ((if classes.isEmpty then []
      else ["## Classes", ""] ++ classes.flatMap (classBlock rel_src methods))
    ++ (if functions.isEmpty then []
        else ["## Functions", ""] ++ functions.flatMap (functionBlock rel_src)))

/-- `_render_module_md` from generator.py (its unused `existing` parameter
is dropped: the source accepts the parsed map but never reads it). -/
def renderModuleMd (T : TemplateStore) (fs : FS) (module : SourceModule)
    (domain_id : String) (src_dir map_dir : Path) :
    Option (String × List Section) :=
  let src_full := src_dir ++ module.source_path
  let module_name := Path.stem module.source_path
  let module_map_path :=
    map_dir ++ ["modules", domain_id, module_name ++ ".md"]
  let rel_src := compute_relative_path module_map_path src_full
  let module_doc := extract_module_docstring fs src_full
  let module_description :=
    match module_doc with
    | none => make_placeholder ("Describe " ++ module_name)
    | some md =>
      if md = "" then make_placeholder ("Describe " ++ module_name)
      else pyStrip (firstLineOf md)
  (render_template T "module.md"
    [("module_id", domain_id ++ "." ++ module_name),
     ("module_name", module_name),
     ("module_description", module_description),
     ("components", componentsOfModule module rel_src)]).map
    (fun content => (content, sectionsOfModule module))

/-! ## Domain rendering (_render_domain_md) -/

/-- One row of the domain modules table. -/
def moduleRow (domain_id : String) (module : SourceModule) : String :=
  let module_name := Path.stem module.source_path
  let module_link := "[" ++ module_name ++ "](../modules/" ++ domain_id
    ++ "/" ++ module_name ++ ".md)"
  let classes :=
    (module.symbols.filter (fun s => s.kind == SymbolKind.CLASS)).length
  let functions :=
    (module.symbols.filter (fun s => s.kind == SymbolKind.FUNCTION)).length
  let desc :=
    if module.symbols.isEmpty then
      make_placeholder ("Describe " ++ module_name)
    else
      let parts :=
        (if classes = 0 then []
         else [toString classes ++ " class"
           ++ (if 1 < classes then "es" else "")])
        ++ (if functions = 0 then []
            else [toString functions ++ " function"
              ++ (if 1 < functions then "s" else "")])
      if parts.isEmpty then make_placeholder ("Describe " ++ module_name)
      else strJoin ", " parts
  "| " ++ module_link ++ " | " ++ desc ++ " |"

/-- `_render_domain_md` from code-mapping generator.py (its unused
`existing` parameter is dropped). -/
def renderDomainMd (T : TemplateStore) (domain : Domain) : Option String :=
  let modules_rows := domain.modules.map (moduleRow domain.domain_id)
  let modules_table :=
    if modules_rows.isEmpty then "| *No modules* | |"
    else strJoin "\n" modules_rows
  render_template T "domain.md"
    [("domain_id", domain.domain_id),
     ("domain_name", domain.name),
     ("domain_description", domain.description),
     ("modules_table", modules_table),
     ("dependencies", make_placeholder "List cross-domain dependencies")]

/-! ## generate_maps (code-mapping/scripts/generate/generator.py) -/

/-- A generated file written to disk (generated markdown is not Python
source, so its parse outcome is modeled as a failure). -/
def mkMdFile (content : String) : FSFile :=
  { content := content, pyParse := none }

/-- `path.write_text content`: replace every entry at that path, or append
the file. -/
def FS.writeText (fs : FS) (p : Path) (content : String) : FS :=
  if fs.any (fun e => e.1 = p) then
    fs.map (fun e => if e.1 = p then (p, mkMdFile content) else e)
  else fs ++ [(p, mkMdFile content)]

/-- The Python exceptions `generate_maps` can raise: a template missing a
substitution, and the attribute access on the undeclared
`ChangeReport.unfilled_placeholders` field. -/
inductive PyExc where
  | keyError
  | attributeError
deriving Repr, DecidableEq

/-- The outcome of one `generate_maps` call: the filesystem after its
writes, the report and map files accumulated so far, and the exception it
raised, if any (when `exc` is set the function did not return). -/
structure GenOutcome where
  fs : FS
  report : ChangeReport
  map_files : List MapFile
  exc : Option PyExc

/-- The mutable state of the per-module loop of `generate_maps`. -/
structure ModuleLoopState where
  fs : FS
  report : ChangeReport
  map_files : List MapFile
  all_sections : List Section
  exc : Option PyExc

/-- The map-relative path of a module document. -/
def modulePathOf (domain_id : String) (module : SourceModule) : Path :=
  ["modules", domain_id, Path.stem module.source_path ++ ".md"]

/-- One iteration of the module loop of `generate_maps`: render the module
document (the `parse_existing_map` call is pure and its result unused, so
it is omitted), write it, record creation, sections and the MapFile. -/
def moduleStep (T : TemplateStore) (cfg : GeneratorConfig)
    (domain_id : String) (src_dir map_dir : Path)
    (existing_files : List Path) (st : ModuleLoopState)
    (module : SourceModule) : ModuleLoopState :=
  match st.exc with
  | some _ => st
  | none =>
    let module_path := modulePathOf domain_id module
    match renderModuleMd T st.fs module domain_id src_dir map_dir with
    | none => { st with exc := some .keyError }
    | some (module_content, sections) =>
      { fs :=
          if cfg.dry_run then st.fs
          else st.fs.writeText (map_dir ++ module_path) module_content,
        report :=
          let r1 :=
            if existing_files.contains module_path then st.report
            else { st.report with
                   created_files := st.report.created_files ++ [module_path] }
          { r1 with
            new_sections := r1.new_sections
              ++ module.symbols.map (fun sym => (module_path, sym.name)) },
        map_files := st.map_files
          ++ [{ source_path := module.source_path, map_path := module_path,
                file_description := "",
                file_description_is_placeholder := false,
                sections := sections }],
        all_sections := st.all_sections ++ sections,
        exc := none }

/-- `generate_maps` from code-mapping generator.py, over the filesystem
model.  Every step mirrors the source in order: render and write README.md
and ARCHITECTURE.md unconditionally (their `created_files` entries are the
only thing guarded by prior existence), run the module loop, render and
write the domain document, then track unfilled placeholders — the first
`report.unfilled_placeholders.append` hits a field `ChangeReport` does not
declare, an `AttributeError`. -/
def generate_maps (T : TemplateStore) (cfg : GeneratorConfig) (fs0 : FS) :
    GenOutcome :=
  let src_dir := cfg.src_dir
  let map_dir := cfg.map_dir
  let modules := modulesOf fs0 cfg
  let domain := domainOf fs0 cfg
  let domain_id := domain.domain_id
  let existing_files := existingFilesOf fs0 map_dir
  match renderReadmeMd T (projectNameOf cfg) cfg.project_description
      [domain] with
  | none => { fs := fs0, report := {}, map_files := [],
              exc := some .keyError }
  | some readme_content =>
    let fs1 :=
      if cfg.dry_run then fs0
      else fs0.writeText (map_dir ++ ["README.md"]) readme_content
    let report1 : ChangeReport :=
      if existing_files.contains ["README.md"] then {}
      else { created_files := [["README.md"]] }
    match renderArchitectureMd T (projectNameOf cfg) [domain] with
    | none => { fs := fs1, report := report1, map_files := [],
                exc := some .keyError }
    | some arch_content =>
      let fs2 :=
        if cfg.dry_run then fs1
        else fs1.writeText (map_dir ++ ["ARCHITECTURE.md"]) arch_content
      let report2 :=
        if existing_files.contains ["ARCHITECTURE.md"] then report1
        else { report1 with
               created_files := report1.created_files
                 ++ [["ARCHITECTURE.md"]] }
      let stF := modules.foldl
        (moduleStep T cfg domain_id src_dir map_dir existing_files)
        { fs := fs2, report := report2, map_files := [], all_sections := [],
          exc := none }
      match stF.exc with
      | some e =>
        { fs := stF.fs, report := stF.report, map_files := stF.map_files,
          exc := some e }
      | none =>
        let domain_path : Path := ["domains", domain_id ++ ".md"]
        match renderDomainMd T domain with
        | none =>
          { fs := stF.fs, report := stF.report, map_files := stF.map_files,
            exc := some .keyError }
        | some domain_content =>
          let fs3 :=
            if cfg.dry_run then stF.fs
            else stF.fs.writeText (map_dir ++ domain_path) domain_content
          let report3 :=
            if existing_files.contains domain_path then stF.report
            else { stF.report with
                   created_files := stF.report.created_files
                     ++ [domain_path] }
          if is_placeholder cfg.project_description then
            { fs := fs3, report := report3, map_files := stF.map_files,
              exc := some .attributeError }
          else if is_placeholder domain.description then
            { fs := fs3, report := report3, map_files := stF.map_files,
              exc := some .attributeError }
          else if stF.all_sections.any (fun sec =>
              sec.is_placeholder && modules.any (fun m =>
                m.symbols.any (fun s => s.name = sec.symbol_name))) then
            { fs := fs3, report := report3, map_files := stF.map_files,
              exc := some .attributeError }
          else
            { fs := fs3, report := report3, map_files := stF.map_files,
              exc := none }

/-! ## Totality of the renderers under a compatible template store -/

lemma templateVars_lit (s : String) (rest : List TChunk) :
    templateVars (.lit s :: rest) = templateVars rest := by
  simp [templateVars]

lemma templateVars_tvar (n : String) (rest : List TChunk) :
    templateVars (.tvar n :: rest) = n :: templateVars rest := by
  simp [templateVars]

lemma subsLookup_total (subs : List (String × String)) (n : String)
    (h : n ∈ subs.map Prod.fst) : ∃ v, subsLookup subs n = some v := by
  obtain ⟨e, he, hfst⟩ := List.mem_map.mp h
  have hsome : (List.find? (fun e => e.1 = n) subs).isSome := by
    rw [List.find?_isSome]
    exact ⟨e, he, by simp [hfst]⟩
  obtain ⟨w, hw⟩ := Option.isSome_iff_exists.mp hsome
  exact ⟨w.2, by simp [subsLookup, hw]⟩

lemma substituteTemplate_total (t : List TChunk)
    (subs : List (String × String))
    (h : templateVars t ⊆ subs.map Prod.fst) :
    ∃ s, substituteTemplate t subs = some s := by
  induction t with
  | nil => exact ⟨"", rfl⟩
  | cons c rest ih =>
    cases c with
    | lit s =>
      obtain ⟨r, hr⟩ := ih (by rw [templateVars_lit] at h; exact h)
      exact ⟨s ++ r, by simp [substituteTemplate, hr]⟩
    | tvar n =>
      rw [templateVars_tvar] at h
      obtain ⟨v, hv⟩ := subsLookup_total subs n (h (List.mem_cons_self _ _))
      obtain ⟨r, hr⟩ := ih (fun x hx => h (List.mem_cons_of_mem _ hx))
      exact ⟨v ++ r, by simp [substituteTemplate, hv, hr]⟩

lemma render_template_total (T : TemplateStore) (n : String)
    (subs : List (String × String))
    (h : templateVars (T n) ⊆ subs.map Prod.fst) :
    ∃ s, render_template T n subs = some s := by
  obtain ⟨s, hs⟩ := substituteTemplate_total (T n) subs h
  exact ⟨pyRstrip s ++ "\n", by simp [render_template, hs]⟩

lemma renderReadmeMd_total {T : TemplateStore} (hT : TemplatesOK T)
    (pn pd : String) (ds : List Domain) :
    ∃ s, renderReadmeMd T pn pd ds = some s := by
  apply render_template_total
  intro x hx
  have := hT.1 hx
  simpa using this

lemma renderArchitectureMd_total {T : TemplateStore} (hT : TemplatesOK T)
    (pn : String) (ds : List Domain) :
    ∃ s, renderArchitectureMd T pn ds = some s := by
  apply render_template_total
  intro x hx
  have := hT.2.1 hx
  simpa using this

lemma renderModuleMd_total {T : TemplateStore} (hT : TemplatesOK T)
    (fs : FS) (m : SourceModule) (did : String) (sd md : Path) :
    ∃ c, renderModuleMd T fs m did sd md =
      some (c, sectionsOfModule m) := by
  obtain ⟨s, hs⟩ := render_template_total T "module.md"
    [("module_id", did ++ "." ++ Path.stem m.source_path),
     ("module_name", Path.stem m.source_path),
     ("module_description",
      match extract_module_docstring fs (sd ++ m.source_path) with
      | none => make_placeholder ("Describe " ++ Path.stem m.source_path)
      | some mdoc =>
        if mdoc = "" then
          make_placeholder ("Describe " ++ Path.stem m.source_path)
        else pyStrip (firstLineOf mdoc)),
     ("components", componentsOfModule m
       (compute_relative_path
         (md ++ ["modules", did, Path.stem m.source_path ++ ".md"])
         (sd ++ m.source_path)))]
    (by intro x hx; have := hT.2.2.1 hx; simpa using this)
  exact ⟨s, by simp only [renderModuleMd, hs, Option.map_some']⟩

lemma renderDomainMd_total {T : TemplateStore} (hT : TemplatesOK T)
    (d : Domain) : ∃ s, renderDomainMd T d = some s := by
  apply render_template_total
  intro x hx
  have := hT.2.2.2 hx
  simpa using this

lemma moduleLoop_exc_none {T : TemplateStore} (hT : TemplatesOK T)
    (cfg : GeneratorConfig) (did : String) (sd md : Path)
    (ef : List Path) :
    ∀ (modules : List SourceModule) (st : ModuleLoopState),
      st.exc = none →
      (modules.foldl (moduleStep T cfg did sd md ef) st).exc = none := by
  intro modules
  induction modules with
  | nil => intro st h; exact h
  | cons m ms ih =>
    intro st h
    rw [List.foldl_cons]
    apply ih
    unfold moduleStep
    rw [h]
    obtain ⟨c, hc⟩ := renderModuleMd_total hT st.fs m did sd md
    rw [hc]

/-! ## The generator always raises -/

/-- The placeholder-tracking stage of `generate_maps` always hits the
undeclared `unfilled_placeholders` field: whatever the configuration and
filesystem, the call ends with an `AttributeError` (the template store
being compatible, so that no `KeyError` fires first). -/
lemma gen_raises (T : TemplateStore) (cfg : GeneratorConfig) (fs0 : FS)
    (hT : TemplatesOK T) :
    (generate_maps T cfg fs0).exc = some PyExc.attributeError := by
  obtain ⟨rc, hrc⟩ := renderReadmeMd_total hT (projectNameOf cfg)
    cfg.project_description [domainOf fs0 cfg]
  obtain ⟨ac, hac⟩ := renderArchitectureMd_total hT (projectNameOf cfg)
    [domainOf fs0 cfg]
  obtain ⟨dc, hdc⟩ := renderDomainMd_total hT (domainOf fs0 cfg)
  simp only [generate_maps, hrc, hac]
  rw [moduleLoop_exc_none hT cfg (domainOf fs0 cfg).domain_id cfg.src_dir
    cfg.map_dir (existingFilesOf fs0 cfg.map_dir) (modulesOf fs0 cfg) _ rfl]
  simp only [hdc]
  split
  case isTrue => rfl
  case isFalse =>
  split
  case isTrue => rfl
  case isFalse hdomdesc =>
    have hpl : is_placeholder (domainOf fs0 cfg).description = true := by
      show is_placeholder "<!-- TODO: Describe this domain -->" = true
      decide
    exact absurd hpl (by simpa using hdomdesc)

/-! ## Concrete instances for witnesses and counterexamples -/

/-- A template store whose templates are all empty (no substitution
markers), so every render succeeds. -/
def T0 : TemplateStore := fun _ => []

/-- A concrete generator configuration: source tree at `s`, map directory
at `m`, all remaining fields at their defaults. -/
def cfgW : GeneratorConfig := { src_dir := ["s"], map_dir := ["m"] }

/-- A parsed one-function Python source file (the function has no
docstring). -/
def pyFileW : FSFile :=
  { content := "def f():\n    pass\n",
    pyParse := some { docstring := none,
                      body := [.funcDef "f" 1 false none "()" []] } }

/-- A source tree holding one Python module. -/
def fsW : FS := [(["s", "mod.py"], pyFileW)]

/-- A filesystem whose map directory already holds a manually edited
README.md. -/
def fsC3 : FS :=
  [(["m", "README.md"], { content := "manual", pyParse := none })]

/-- A one-symbol module whose function has no docstring. -/
def modC7 : SourceModule :=
  { source_path := ["mod.py"],
    symbols := [{ name := "f", kind := .FUNCTION, line := 1 }] }

/-! ## C10 -/

/-- C10: code-mapping `generate_maps` appends to
`report.unfilled_placeholders`, a field its `ChangeReport` does not
declare, and the hard-coded domain description is itself a placeholder, so
for every configuration and filesystem the call raises `AttributeError`
instead of returning the report (the template store being compatible, so
that no `KeyError` fires first). -/
theorem generate_maps_attribute_error (T : TemplateStore)
    (cfg : GeneratorConfig) (fs0 : FS) (hT : TemplatesOK T) :
    (generate_maps T cfg fs0).exc = some PyExc.attributeError :=
  gen_raises T cfg fs0 hT

/-- Witness for C10: on a concrete one-module source tree with empty
templates, `generate_maps` raises `AttributeError`. -/
theorem generate_maps_attribute_error_witness :
    TemplatesOK T0
      ∧ (generate_maps T0 cfgW fsW).exc = some PyExc.attributeError :=
  ⟨by decide, generate_maps_attribute_error T0 cfgW fsW (by decide)⟩

/-! ## Write-level lemmas -/

lemma lookup_nil (q : Path) : FS.lookup [] q = none := rfl

lemma lookup_cons (e : Path × FSFile) (es : FS) (q : Path) :
    FS.lookup (e :: es) q = if e.1 = q then some e.2 else FS.lookup es q := by
  simp only [FS.lookup, List.find?_cons]
  by_cases h : e.1 = q
  · simp [h]
  · simp [h]

lemma lookup_map_replace (fs : FS) (p : Path) (c : String) (q : Path) :
    FS.lookup (fs.map (fun e => if e.1 = p then (p, mkMdFile c) else e)) q =
      if q = p then
        (if fs.any (fun e => e.1 = p) then some (mkMdFile c) else none)
      else FS.lookup fs q := by
  induction fs with
  | nil =>
    by_cases hqp : q = p <;> simp [hqp, lookup_nil]
  | cons e es ih =>
    simp only [List.map_cons, List.any_cons]
    rw [lookup_cons, lookup_cons]
    by_cases hep : e.1 = p
    · by_cases hqp : q = p
      · subst hqp
        simp [hep, ih]
      · have hq1 : ¬p = q := fun h => hqp h.symm
        have he1 : ¬e.1 = q := by rw [hep]; exact hq1
        simp [hep, hq1, he1, hqp, ih]
    · by_cases heq : e.1 = q
      · have hqp : ¬q = p := fun h => hep (heq.trans h)
        simp [hep, heq, hqp]
      · simp only [hep, heq, if_false, ih, decide_eq_false hep]
        by_cases hq : q = p
        · rw [if_pos hq, if_pos hq, decide_False, Bool.false_or]
        · rw [if_neg hq, if_neg hq]

lemma lookup_writeText (fs : FS) (p : Path) (c : String) (q : Path) :
    FS.lookup (fs.writeText p c) q =
      if q = p then some (mkMdFile c) else FS.lookup fs q := by
  unfold FS.writeText
  by_cases hany : fs.any (fun e => e.1 = p) = true
  · rw [if_pos hany, lookup_map_replace, hany]
    by_cases hqp : q = p <;> simp [hqp]
  · rw [if_neg hany]
    by_cases hqp : q = p
    · subst hqp
      have hnone : List.find? (fun e => decide (e.1 = q)) fs = none := by
        rw [List.find?_eq_none]
        intro x hx
        simp only [decide_eq_true_eq]
        intro hxq
        exact hany (List.any_eq_true.mpr ⟨x, hx, by simp [hxq]⟩)
      simp only [FS.lookup, List.find?_append, hnone, Option.or, if_pos rfl]
      rw [List.find?_cons_of_pos _ (by simp)]
      rfl
    · simp only [FS.lookup, List.find?_append, if_neg hqp]
      cases hfind : List.find? (fun e => decide (e.1 = q)) fs with
      | some e => simp [Option.or]
      | none =>
        simp only [Option.or]
        rw [List.find?_cons_of_neg _ (by
          intro hcon
          rw [decide_eq_true_eq] at hcon
          exact hqp hcon.symm)]
        rfl

/-- Apply a list of writes in order. -/
def applyWrites (ws : List (Path × String)) (fs : FS) : FS :=
  ws.foldl (fun f w => f.writeText w.1 w.2) fs

/-- The last write to a path in a write list. -/
def lastWriteOf (ws : List (Path × String)) (q : Path) : Option String :=
  (List.find? (fun w => w.1 = q) ws.reverse).map (·.2)

lemma lookup_applyWrites :
    ∀ (ws : List (Path × String)) (fs : FS) (q : Path),
      FS.lookup (applyWrites ws fs) q =
        match lastWriteOf ws q with
        | some c => some (mkMdFile c)
        | none => FS.lookup fs q := by
  intro ws
  induction ws with
  | nil => intro fs q; rfl
  | cons w ws ih =>
    intro fs q
    show FS.lookup (applyWrites ws (fs.writeText w.1 w.2)) q = _
    rw [ih]
    have hlast : lastWriteOf (w :: ws) q =
        match lastWriteOf ws q with
        | some c => some c
        | none => if w.1 = q then some w.2 else none := by
      unfold lastWriteOf
      rw [show (w :: ws).reverse = ws.reverse ++ [w] by simp,
        List.find?_append]
      cases hfind : List.find? (fun x => decide (x.1 = q)) ws.reverse with
      | some e => simp [Option.or]
      | none =>
        by_cases hq : w.1 = q
        · rw [List.find?_cons_of_pos _ (by simp [hq])]
          simp [Option.or, hq]
        · rw [List.find?_cons_of_neg _ (by simp [hq])]
          simp [Option.or, hq]
    rw [hlast]
    cases lastWriteOf ws q with
    | some c => rfl
    | none =>
      rw [lookup_writeText]
      by_cases hq : q = w.1
      · rw [if_pos hq, if_pos hq.symm]
      · rw [if_neg hq, if_neg (fun h : w.1 = q => hq h.symm)]

lemma applyWrites_append (xs ys : List (Path × String)) (fs : FS) :
    applyWrites (xs ++ ys) fs = applyWrites ys (applyWrites xs fs) := by
  unfold applyWrites
  rw [List.foldl_append]

lemma lookup_applyWrites_idem (ws : List (Path × String)) (fs : FS)
    (q : Path) :
    FS.lookup (applyWrites ws (applyWrites ws fs)) q =
      FS.lookup (applyWrites ws fs) q := by
  rw [lookup_applyWrites, lookup_applyWrites]
  cases lastWriteOf ws q with
  | some c => rfl
  | none => rfl

lemma applyWrites_cons (w : Path × String) (ws : List (Path × String))
    (fs : FS) :
    applyWrites (w :: ws) fs = applyWrites ws (fs.writeText w.1 w.2) := rfl

lemma lastWriteOf_eq_none {ws : List (Path × String)} {q : Path}
    (h : ∀ w ∈ ws, w.1 ≠ q) : lastWriteOf ws q = none := by
  unfold lastWriteOf
  rw [List.find?_eq_none.mpr]
  · rfl
  · intro x hx
    simp only [decide_eq_true_eq]
    exact h x (List.mem_reverse.mp hx)

lemma lookup_applyWrites_not_mem {ws : List (Path × String)} {q : Path}
    (fs : FS) (h : ∀ w ∈ ws, w.1 ≠ q) :
    FS.lookup (applyWrites ws fs) q = FS.lookup fs q := by
  rw [lookup_applyWrites, lastWriteOf_eq_none h]

lemma lookup_applyWrites_mem {ws : List (Path × String)} {p : Path}
    (h : p ∈ ws.map Prod.fst) (fs : FS) :
    ∃ c, FS.lookup (applyWrites ws fs) p = some (mkMdFile c) := by
  rw [lookup_applyWrites]
  cases hl : lastWriteOf ws p with
  | some c => exact ⟨c, rfl⟩
  | none =>
    exfalso
    unfold lastWriteOf at hl
    rw [Option.map_eq_none'] at hl
    rw [List.find?_eq_none] at hl
    obtain ⟨w, hw, hwp⟩ := List.mem_map.mp h
    exact hl w (List.mem_reverse.mpr hw) (by simp [hwp])

/-! ## Suffix and path-name lemmas -/

lemma isPrefixOf_to_IsPrefix {α : Type} [DecidableEq α] :
    ∀ (a b : List α), a.isPrefixOf b = true ↔ a <+: b := by
  intro a
  induction a with
  | nil =>
    intro b
    simp only [List.isPrefixOf_nil_left, true_iff]
    exact List.nil_prefix
  | cons x xs ih =>
    intro b
    cases b with
    | nil =>
      constructor
      · intro hcon
        rw [List.isPrefixOf_cons_nil] at hcon
        exact absurd hcon (by decide)
      · intro hcon
        obtain ⟨t, ht⟩ := hcon
        exact absurd ht (List.cons_ne_nil x (xs ++ t))
    | cons y ys =>
      rw [List.isPrefixOf_cons₂, Bool.and_eq_true, beq_iff_eq, ih]
      constructor
      · rintro ⟨hxy, t, ht⟩
        exact ⟨t, by rw [hxy, List.cons_append, ht]⟩
      · rintro ⟨t, ht⟩
        injection ht with h1 h2
        exact ⟨h1, t, h2⟩

lemma isSuffixOf_to_IsSuffix {α : Type} [DecidableEq α] (a b : List α) :
    a.isSuffixOf b = true ↔ a <:+ b := by
  unfold List.isSuffixOf
  rw [isPrefixOf_to_IsPrefix]
  exact List.reverse_prefix

lemma strEnds_iff (s pat : String) :
    strEnds s pat = true ↔ pat.data <:+ s.data := by
  unfold strEnds
  exact isSuffixOf_to_IsSuffix _ _

lemma strEnds_append (s t : String) : strEnds (s ++ t) t = true := by
  rw [strEnds_iff, String.data_append]
  exact List.suffix_append _ _

lemma md_ne_py {s : String} (hmd : strEnds s ".md" = true) :
    strEnds s ".py" = false := by
  by_contra hpy
  rw [Bool.not_eq_false, strEnds_iff] at hpy
  rw [strEnds_iff] at hmd
  rcases List.suffix_or_suffix_of_suffix hmd hpy with h | h
  · exact absurd (List.IsSuffix.eq_of_length h (by decide)) (by decide)
  · exact absurd (List.IsSuffix.eq_of_length h (by decide)) (by decide)

lemma path_name_one (a : Path) (x : String) : Path.name (a ++ [x]) = x :=
  List.getLastD_concat _ _ _

lemma path_name_two (a : Path) (x y : String) :
    Path.name (a ++ [x, y]) = y := by
  have h : a ++ [x, y] = (a ++ [x]) ++ [y] := by simp
  rw [h]
  exact path_name_one _ _

lemma path_name_three (a : Path) (x y z : String) :
    Path.name (a ++ [x, y, z]) = z := by
  have h : a ++ [x, y, z] = (a ++ [x, y]) ++ [z] := by simp
  rw [h]
  exact path_name_one _ _

lemma append_left_ne {a b c : Path} (h : b ≠ c) : a ++ b ≠ a ++ c :=
  fun hh => h (List.append_cancel_left hh)

lemma contains_of_mem {l : List Path} {x : Path} (h : x ∈ l) :
    l.contains x = true :=
  List.elem_iff.mpr h

/-! ## The generator's view of the filesystem

All the generator writes are markdown files; its reads are lookups of
Python files and the `srcFilter`-filtered key listing.  `mdInvariant`
says those observations agree between two filesystems, so a run started
on either produces the same write list. -/

/-- The observations `generate_maps` makes of the filesystem agree between
`fs0` and `fsB`: Python-file lookups and the filtered source listing. -/
def mdInvariant (fs0 fsB : FS) (srcDir : Path) : Prop :=
  (∀ p, strEnds (Path.name p) ".py" = true →
      FS.lookup fsB p = FS.lookup fs0 p)
    ∧ (fsB.map Prod.fst).filter (srcFilter srcDir)
        = (fs0.map Prod.fst).filter (srcFilter srcDir)

lemma mdInvariant_refl (fs : FS) (sd : Path) : mdInvariant fs fs sd :=
  ⟨fun _ _ => rfl, rfl⟩

lemma keys_writeText (fs : FS) (p : Path) (c : String) :
    (fs.writeText p c).map Prod.fst =
      if fs.any (fun e => e.1 = p) = true then fs.map Prod.fst
      else fs.map Prod.fst ++ [p] := by
  unfold FS.writeText
  by_cases h : fs.any (fun e => e.1 = p) = true
  · rw [if_pos h, if_pos h, List.map_map]
    apply List.map_congr_left
    intro e he
    by_cases hep : e.1 = p
    · simp [Function.comp, hep]
    · simp [Function.comp, hep]
  · rw [if_neg h, if_neg h, List.map_append]
    rfl

lemma mdInvariant_writeText {fs0 fsB : FS} {sd : Path}
    (h : mdInvariant fs0 fsB sd) (p : Path) (c : String)
    (hmd : strEnds (Path.name p) ".md" = true) :
    mdInvariant fs0 (fsB.writeText p c) sd := by
  refine ⟨?_, ?_⟩
  · intro q hq
    rw [lookup_writeText]
    have hne : ¬q = p := by
      intro hqp
      rw [hqp, md_ne_py hmd] at hq
      exact absurd hq (by decide)
    rw [if_neg hne]
    exact h.1 q hq
  · rw [keys_writeText]
    by_cases hany : fsB.any (fun e => e.1 = p) = true
    · rw [if_pos hany]
      exact h.2
    · rw [if_neg hany, List.filter_append, h.2]
      have hp1 : List.filter (srcFilter sd) [p] = [] := by
        simp [List.filter, srcFilter, md_ne_py hmd]
      rw [hp1, List.append_nil]

lemma mdInvariant_applyWrites {fs0 : FS} {sd : Path} :
    ∀ (ws : List (Path × String)) {fsB : FS},
      mdInvariant fs0 fsB sd →
      (∀ w ∈ ws, strEnds (Path.name w.1) ".md" = true) →
      mdInvariant fs0 (applyWrites ws fsB) sd := by
  intro ws
  induction ws with
  | nil => intro fsB h _; exact h
  | cons w ws ih =>
    intro fsB h hmd
    rw [applyWrites_cons]
    exact ih
      (mdInvariant_writeText h w.1 w.2 (hmd w (List.mem_cons_self _ _)))
      (fun x hx => hmd x (List.mem_cons_of_mem _ hx))

/-! ## Congruence of the generator's reads -/

lemma extract_symbols_congr {fs0 fsB : FS} {sd : Path}
    (h : mdInvariant fs0 fsB sd) (p : Path)
    (hp : strEnds (Path.name p) ".py" = true) :
    extract_symbols fsB p = extract_symbols fs0 p := by
  unfold extract_symbols
  rw [h.1 p hp]

lemma extract_module_docstring_congr {fs0 fsB : FS} {sd : Path}
    (h : mdInvariant fs0 fsB sd) (p : Path)
    (hp : strEnds (Path.name p) ".py" = true) :
    extract_module_docstring fsB p = extract_module_docstring fs0 p := by
  unfold extract_module_docstring
  rw [h.1 p hp]

lemma sourceFilesOf_congr {fs0 fsB : FS} {sd : Path}
    (h : mdInvariant fs0 fsB sd) :
    sourceFilesOf fsB sd = sourceFilesOf fs0 sd := by
  unfold sourceFilesOf
  rw [h.2]

lemma mem_insertSorted (x y : Path) (l : List Path) :
    y ∈ insertSorted x l ↔ y = x ∨ y ∈ l := by
  induction l with
  | nil => simp [insertSorted]
  | cons z zs ih =>
    unfold insertSorted
    by_cases h : pathLe x z = true
    · simp [h]
    · rw [if_neg h]
      simp only [List.mem_cons, ih]
      tauto

lemma mem_sortPaths (y : Path) (l : List Path) :
    y ∈ sortPaths l ↔ y ∈ l := by
  induction l with
  | nil => exact Iff.rfl
  | cons x xs ih =>
    unfold sortPaths
    rw [mem_insertSorted, ih, List.mem_cons]

lemma srcFilter_of_mem_sourceFiles {fs : FS} {sd p : Path}
    (h : p ∈ sourceFilesOf fs sd) : srcFilter sd p = true := by
  unfold sourceFilesOf at h
  rw [mem_sortPaths] at h
  exact (List.mem_filter.mp h).2

lemma ends_py_of_srcFilter {sd p : Path} (h : srcFilter sd p = true) :
    strEnds (Path.name p) ".py" = true := by
  simp only [srcFilter, Bool.and_eq_true] at h
  exact h.1.1.2

lemma isUnder_of_srcFilter {sd p : Path} (h : srcFilter sd p = true) :
    isUnder sd p = true := by
  simp only [srcFilter, Bool.and_eq_true] at h
  exact h.1.1.1

lemma append_relativeTo {sd p : Path} (h : isUnder sd p = true) :
    sd ++ relativeTo p sd = p := by
  simp only [isUnder, Bool.and_eq_true] at h
  obtain ⟨t, ht⟩ := (isPrefixOf_to_IsPrefix sd p).mp h.1
  unfold relativeTo
  rw [← ht, List.drop_left]

lemma modulesOf_congr {fs0 fsB : FS} (cfg : GeneratorConfig)
    (h : mdInvariant fs0 fsB cfg.src_dir) :
    modulesOf fsB cfg = modulesOf fs0 cfg := by
  unfold modulesOf
  rw [sourceFilesOf_congr h]
  apply List.filterMap_congr
  intro p hp
  rw [extract_symbols_congr h p
    (ends_py_of_srcFilter (srcFilter_of_mem_sourceFiles hp))]

lemma domainOf_congr {fs0 fsB : FS} (cfg : GeneratorConfig)
    (h : mdInvariant fs0 fsB cfg.src_dir) :
    domainOf fsB cfg = domainOf fs0 cfg := by
  unfold domainOf
  rw [modulesOf_congr cfg h]

lemma module_src_full {fs : FS} {cfg : GeneratorConfig} {m : SourceModule}
    (hm : m ∈ modulesOf fs cfg) :
    strEnds (Path.name (cfg.src_dir ++ m.source_path)) ".py" = true := by
  unfold modulesOf at hm
  obtain ⟨p, hp, hpm⟩ := List.mem_filterMap.mp hm
  by_cases he : (extract_symbols fs p).isEmpty = true
  · rw [if_pos he] at hpm
    exact absurd hpm (by simp)
  · rw [if_neg he] at hpm
    have hsrc : m.source_path = relativeTo p cfg.src_dir := by
      rw [← Option.some.inj hpm]
    have hfull : cfg.src_dir ++ m.source_path = p := by
      rw [hsrc]
      exact append_relativeTo
        (isUnder_of_srcFilter (srcFilter_of_mem_sourceFiles hp))
    rw [hfull]
    exact ends_py_of_srcFilter (srcFilter_of_mem_sourceFiles hp)

lemma renderModuleMd_congr {fs0 fsB : FS} {cfg : GeneratorConfig}
    {m : SourceModule} (h : mdInvariant fs0 fsB cfg.src_dir)
    (hm : m ∈ modulesOf fs0 cfg) (T : TemplateStore) (did : String)
    (md : Path) :
    renderModuleMd T fsB m did cfg.src_dir md
      = renderModuleMd T fs0 m did cfg.src_dir md := by
  have hdoc : extract_module_docstring fsB (cfg.src_dir ++ m.source_path)
      = extract_module_docstring fs0 (cfg.src_dir ++ m.source_path) :=
    extract_module_docstring_congr h _ (module_src_full hm)
  simp only [renderModuleMd, hdoc]

/-! ## The write list of one run -/

/-- The content of one module document, as a pure function of the pre-run
filesystem. -/
def moduleContent (T : TemplateStore) (fs : FS) (did : String)
    (sd md : Path) (m : SourceModule) : String :=
  ((renderModuleMd T fs m did sd md).map Prod.fst).getD ""

/-- The write list of one `generate_maps` run: README.md, ARCHITECTURE.md,
one document per module, then the domain document. -/
def genWrites (T : TemplateStore) (cfg : GeneratorConfig) (fs : FS) :
    List (Path × String) :=
  let domain := domainOf fs cfg
  let did := domain.domain_id
  [(cfg.map_dir ++ ["README.md"],
    (renderReadmeMd T (projectNameOf cfg) cfg.project_description
      [domain]).getD ""),
   (cfg.map_dir ++ ["ARCHITECTURE.md"],
    (renderArchitectureMd T (projectNameOf cfg) [domain]).getD "")]
  ++ (modulesOf fs cfg).map (fun m =>
      (cfg.map_dir ++ modulePathOf did m,
       moduleContent T fs did cfg.src_dir cfg.map_dir m))
  ++ [(cfg.map_dir ++ ["domains", did ++ ".md"],
      (renderDomainMd T domain).getD "")]

lemma modulePath_ends_md (md : Path) (did : String) (m : SourceModule) :
    strEnds (Path.name (md ++ modulePathOf did m)) ".md" = true := by
  unfold modulePathOf
  rw [path_name_three]
  exact strEnds_append _ ".md"

lemma genWrites_md (T : TemplateStore) (cfg : GeneratorConfig) (fs : FS) :
    ∀ w ∈ genWrites T cfg fs, strEnds (Path.name w.1) ".md" = true := by
  intro w hw
  simp only [genWrites, List.mem_append, List.mem_cons,
    List.not_mem_nil, or_false, List.mem_map, List.mem_singleton] at hw
  rcases hw with ((hw | hw) | ⟨m, _, hw⟩) | hw
  · rw [hw, path_name_one]
    decide
  · rw [hw, path_name_one]
    decide
  · rw [← hw]
    exact modulePath_ends_md _ _ _
  · rw [hw, path_name_two]
    exact strEnds_append _ ".md"

lemma genWrites_congr {fs0 fsB : FS} {cfg : GeneratorConfig}
    (h : mdInvariant fs0 fsB cfg.src_dir) (T : TemplateStore) :
    genWrites T cfg fsB = genWrites T cfg fs0 := by
  simp only [genWrites, domainOf_congr cfg h, modulesOf_congr cfg h]
  congr 2
  apply List.map_congr_left
  intro m hm
  have hmc : moduleContent T fsB (domainOf fs0 cfg).domain_id cfg.src_dir
      cfg.map_dir m
      = moduleContent T fs0 (domainOf fs0 cfg).domain_id cfg.src_dir
        cfg.map_dir m := by
    unfold moduleContent
    rw [renderModuleMd_congr h hm]
  rw [hmc]

/-! ## Projections of one module-loop step -/

lemma moduleStep_fs {T : TemplateStore} {cfg : GeneratorConfig}
    {did : String} {sd md : Path} (ef : List Path)
    {st : ModuleLoopState} {m : SourceModule} {c : String}
    (hexc : st.exc = none)
    (hc : renderModuleMd T st.fs m did sd md = some (c, sectionsOfModule m))
    (hdry : cfg.dry_run = false) :
    (moduleStep T cfg did sd md ef st m).fs
      = st.fs.writeText (md ++ modulePathOf did m) c := by
  unfold moduleStep
  rw [hexc, hc]
  simp [hdry]

lemma moduleStep_exc {T : TemplateStore} {cfg : GeneratorConfig}
    {did : String} {sd md : Path} {ef : List Path}
    {st : ModuleLoopState} {m : SourceModule} {c : String}
    (hexc : st.exc = none)
    (hc : renderModuleMd T st.fs m did sd md
      = some (c, sectionsOfModule m)) :
    (moduleStep T cfg did sd md ef st m).exc = none := by
  unfold moduleStep
  rw [hexc, hc]

lemma moduleStep_created {T : TemplateStore} {cfg : GeneratorConfig}
    {did : String} {sd md : Path} {ef : List Path}
    {st : ModuleLoopState} {m : SourceModule} {c : String}
    (hexc : st.exc = none)
    (hc : renderModuleMd T st.fs m did sd md
      = some (c, sectionsOfModule m)) :
    (moduleStep T cfg did sd md ef st m).report.created_files
      = st.report.created_files
        ++ (if modulePathOf did m ∈ ef then []
            else [modulePathOf did m]) := by
  unfold moduleStep
  rw [hexc, hc]
  by_cases hcon : modulePathOf did m ∈ ef
  · simp [hcon]
  · simp [hcon]

/-! ## The module loop -/

/-- The created_files entries the module loop appends. -/
def createdList (did : String) (ef : List Path)
    (ms : List SourceModule) : List Path :=
  ms.flatMap (fun m =>
    if modulePathOf did m ∈ ef then []
    else [modulePathOf did m])

lemma createdList_eq_nil {did : String} {ef : List Path} :
    ∀ {ms : List SourceModule},
      (∀ m ∈ ms, modulePathOf did m ∈ ef) →
      createdList did ef ms = [] := by
  intro ms
  induction ms with
  | nil => intro _; rfl
  | cons m ms ih =>
    intro h
    unfold createdList
    rw [List.flatMap_cons, if_pos (h m (List.mem_cons_self _ _))]
    exact ih (fun x hx => h x (List.mem_cons_of_mem _ hx))

lemma mem_createdList {did : String} {ef : List Path}
    {ms : List SourceModule} {x : Path} (h : x ∈ createdList did ef ms) :
    ∃ m ∈ ms, x = modulePathOf did m := by
  unfold createdList at h
  obtain ⟨m, hm, hx⟩ := List.mem_flatMap.mp h
  refine ⟨m, hm, ?_⟩
  by_cases hc : modulePathOf did m ∈ ef
  · rw [if_pos hc] at hx
    cases hx
  · rw [if_neg hc] at hx
    simpa using hx

lemma moduleLoop_created {T : TemplateStore} (hT : TemplatesOK T)
    (cfg : GeneratorConfig) (did : String) (sd md : Path)
    (ef : List Path) :
    ∀ (ms : List SourceModule) (st : ModuleLoopState), st.exc = none →
      (ms.foldl (moduleStep T cfg did sd md ef) st).report.created_files
        = st.report.created_files ++ createdList did ef ms := by
  intro ms
  induction ms with
  | nil =>
    intro st _
    simp [createdList]
  | cons m ms ih =>
    intro st hexc
    obtain ⟨c, hc⟩ := renderModuleMd_total hT st.fs m did sd md
    rw [List.foldl_cons, ih _ (moduleStep_exc hexc hc),
      moduleStep_created hexc hc]
    unfold createdList
    rw [List.flatMap_cons, List.append_assoc]

lemma moduleLoop_fs {T : TemplateStore} (hT : TemplatesOK T)
    {cfg : GeneratorConfig} (hdry : cfg.dry_run = false) (fs0 : FS)
    (did : String) (md : Path) (ef : List Path) :
    ∀ (ms : List SourceModule) (st : ModuleLoopState), st.exc = none →
      mdInvariant fs0 st.fs cfg.src_dir →
      (∀ m ∈ ms, m ∈ modulesOf fs0 cfg) →
      (ms.foldl (moduleStep T cfg did cfg.src_dir md ef) st).fs
        = applyWrites (ms.map (fun m => (md ++ modulePathOf did m,
            moduleContent T fs0 did cfg.src_dir md m))) st.fs := by
  intro ms
  induction ms with
  | nil =>
    intro st _ _ _
    rfl
  | cons m ms ih =>
    intro st hexc hinv hmem
    obtain ⟨c, hc⟩ := renderModuleMd_total hT st.fs m did cfg.src_dir md
    have hm0 := hmem m (List.mem_cons_self _ _)
    have hcont : moduleContent T fs0 did cfg.src_dir md m = c := by
      unfold moduleContent
      rw [← renderModuleMd_congr hinv hm0 T did md, hc]
      rfl
    have hstepfs := moduleStep_fs ef hexc hc hdry
    rw [List.foldl_cons, List.map_cons, applyWrites_cons,
      ih _ (moduleStep_exc hexc hc)
        (by rw [hstepfs]
            exact mdInvariant_writeText hinv _ c (modulePath_ends_md md did m))
        (fun x hx => hmem x (List.mem_cons_of_mem _ hx)),
      hstepfs, hcont]

/-! ## One full run, at the write level -/

lemma generate_maps_fs_eq {T : TemplateStore} (hT : TemplatesOK T)
    {cfg : GeneratorConfig} (hdry : cfg.dry_run = false) (fs0 : FS) :
    (generate_maps T cfg fs0).fs
      = applyWrites (genWrites T cfg fs0) fs0 := by
  obtain ⟨rc, hrc⟩ := renderReadmeMd_total hT (projectNameOf cfg)
    cfg.project_description [domainOf fs0 cfg]
  obtain ⟨ac, hac⟩ := renderArchitectureMd_total hT (projectNameOf cfg)
    [domainOf fs0 cfg]
  obtain ⟨dc, hdc⟩ := renderDomainMd_total hT (domainOf fs0 cfg)
  have hinv2 : mdInvariant fs0
      ((fs0.writeText (cfg.map_dir ++ ["README.md"]) rc).writeText
        (cfg.map_dir ++ ["ARCHITECTURE.md"]) ac) cfg.src_dir :=
    mdInvariant_writeText
      (mdInvariant_writeText (mdInvariant_refl fs0 cfg.src_dir)
        (cfg.map_dir ++ ["README.md"]) rc
        (by rw [path_name_one]; decide))
      (cfg.map_dir ++ ["ARCHITECTURE.md"]) ac
      (by rw [path_name_one]; decide)
  simp only [generate_maps, hrc, hac, hdry, Bool.false_eq_true, if_false]
  rw [moduleLoop_exc_none hT cfg (domainOf fs0 cfg).domain_id cfg.src_dir
    cfg.map_dir (existingFilesOf fs0 cfg.map_dir) (modulesOf fs0 cfg) _ rfl]
  simp only [hdc]
  rw [moduleLoop_fs hT hdry fs0 (domainOf fs0 cfg).domain_id cfg.map_dir
    (existingFilesOf fs0 cfg.map_dir) (modulesOf fs0 cfg) _ rfl hinv2
    (fun m hm => hm)]
  simp only [genWrites, applyWrites_append, hrc, hac, hdc,
    Option.getD_some]
  split_ifs <;> rfl

lemma generate_maps_inv {T : TemplateStore} (hT : TemplatesOK T)
    {cfg : GeneratorConfig} (hdry : cfg.dry_run = false) (fs0 : FS) :
    mdInvariant fs0 (generate_maps T cfg fs0).fs cfg.src_dir := by
  rw [generate_maps_fs_eq hT hdry fs0]
  exact mdInvariant_applyWrites (genWrites T cfg fs0)
    (mdInvariant_refl fs0 cfg.src_dir) (genWrites_md T cfg fs0)

lemma generate_maps_created_eq {T : TemplateStore} (hT : TemplatesOK T)
    (cfg : GeneratorConfig) (fs0 : FS) :
    (generate_maps T cfg fs0).report.created_files
      = (if (["README.md"] : Path) ∈ existingFilesOf fs0 cfg.map_dir
          then [] else [(["README.md"] : Path)])
        ++ (if (["ARCHITECTURE.md"] : Path)
              ∈ existingFilesOf fs0 cfg.map_dir
            then [] else [(["ARCHITECTURE.md"] : Path)])
        ++ createdList (domainOf fs0 cfg).domain_id
            (existingFilesOf fs0 cfg.map_dir) (modulesOf fs0 cfg)
        ++ (if (["domains", (domainOf fs0 cfg).domain_id ++ ".md"] : Path)
              ∈ existingFilesOf fs0 cfg.map_dir
            then []
            else [(["domains",
              (domainOf fs0 cfg).domain_id ++ ".md"] : Path)]) := by
  obtain ⟨rc, hrc⟩ := renderReadmeMd_total hT (projectNameOf cfg)
    cfg.project_description [domainOf fs0 cfg]
  obtain ⟨ac, hac⟩ := renderArchitectureMd_total hT (projectNameOf cfg)
    [domainOf fs0 cfg]
  obtain ⟨dc, hdc⟩ := renderDomainMd_total hT (domainOf fs0 cfg)
  have hloop := moduleLoop_created hT cfg (domainOf fs0 cfg).domain_id
    cfg.src_dir cfg.map_dir (existingFilesOf fs0 cfg.map_dir)
  simp only [generate_maps, hrc, hac]
  rw [moduleLoop_exc_none hT cfg (domainOf fs0 cfg).domain_id cfg.src_dir
    cfg.map_dir (existingFilesOf fs0 cfg.map_dir) (modulesOf fs0 cfg) _ rfl]
  simp only [hdc]
  simp only [apply_ite GenOutcome.report, ite_self]
  simp only [apply_ite ChangeReport.created_files]
  rw [hloop (modulesOf fs0 cfg) _ rfl]
  by_cases h1 : (["README.md"] : Path) ∈ existingFilesOf fs0 cfg.map_dir
    <;> by_cases h2 : (["ARCHITECTURE.md"] : Path)
          ∈ existingFilesOf fs0 cfg.map_dir
    <;> by_cases h3 : (["domains",
          (domainOf fs0 cfg).domain_id ++ ".md"] : Path)
          ∈ existingFilesOf fs0 cfg.map_dir
    <;> simp [h1, h2, h3]

/-! ## Written files are existing files of the next run -/

lemma lookup_some_key {fs : FS} {p : Path} {f : FSFile}
    (h : FS.lookup fs p = some f) : ∃ e ∈ fs, e.1 = p := by
  unfold FS.lookup at h
  cases hf : List.find? (fun e => decide (e.1 = p)) fs with
  | none =>
    rw [hf] at h
    exact absurd h (by simp)
  | some e =>
    have hp := List.find?_some hf
    rw [decide_eq_true_eq] at hp
    exact ⟨e, List.mem_of_find?_eq_some hf, hp⟩

lemma mem_existingFiles {fs : FS} {md rel : Path} {f : FSFile}
    (h : FS.lookup fs (md ++ rel) = some f) (hrel : rel ≠ [])
    (hmd : strEnds (Path.name (md ++ rel)) ".md" = true) :
    rel ∈ existingFilesOf fs md := by
  obtain ⟨e, he, hep⟩ := lookup_some_key h
  unfold existingFilesOf
  apply List.mem_map.mpr
  refine ⟨e, ?_, ?_⟩
  · unfold mdFilesUnder
    apply List.mem_filter.mpr
    refine ⟨he, ?_⟩
    rw [hep]
    simp only [Bool.and_eq_true]
    refine ⟨?_, hmd⟩
    unfold isUnder
    simp only [Bool.and_eq_true]
    constructor
    · exact (isPrefixOf_to_IsPrefix md (md ++ rel)).mpr ⟨rel, rfl⟩
    · rw [decide_eq_true_eq, List.length_append]
      have hpos : 0 < rel.length := List.length_pos.mpr hrel
      omega
  · rw [hep]
    unfold relativeTo
    exact List.drop_left md rel

lemma written_rel_mem_existing {T : TemplateStore} (hT : TemplatesOK T)
    {cfg : GeneratorConfig} (hdry : cfg.dry_run = false) (fs0 : FS)
    {rel : Path}
    (hkey : (cfg.map_dir ++ rel) ∈ (genWrites T cfg fs0).map Prod.fst)
    (hrel : rel ≠ [])
    (hmd : strEnds (Path.name (cfg.map_dir ++ rel)) ".md" = true) :
    rel ∈ existingFilesOf (generate_maps T cfg fs0).fs cfg.map_dir := by
  obtain ⟨c, hc⟩ := lookup_applyWrites_mem hkey fs0
  refine mem_existingFiles (f := mkMdFile c) ?_ hrel hmd
  rw [generate_maps_fs_eq hT hdry fs0]
  exact hc

/-! ## C2 -/

/-- C2 corrected: with unchanged source files, the second `generate_maps`
run is byte-identical at the filesystem level — every path reads back
exactly what the first run left — and its `created_files` delta is empty;
but the claim that the second run returns a `ChangeReport` with an empty
`new_sections` delta is false: the run raises `AttributeError` before
returning (and its in-flight report relists every symbol in
`new_sections`). -/
theorem generate_maps_second_run (T : TemplateStore)
    (cfg : GeneratorConfig) (fs0 : FS) (hT : TemplatesOK T)
    (hdry : cfg.dry_run = false) :
    (∀ q, FS.lookup (generate_maps T cfg (generate_maps T cfg fs0).fs).fs q
        = FS.lookup (generate_maps T cfg fs0).fs q)
      ∧ (generate_maps T cfg
          (generate_maps T cfg fs0).fs).report.created_files = []
      ∧ (generate_maps T cfg (generate_maps T cfg fs0).fs).exc
          = some PyExc.attributeError := by
  have hinv1 := generate_maps_inv hT hdry fs0
  refine ⟨?_, ?_, ?_⟩
  · intro q
    rw [generate_maps_fs_eq hT hdry (generate_maps T cfg fs0).fs,
      genWrites_congr hinv1 T, generate_maps_fs_eq hT hdry fs0]
    exact lookup_applyWrites_idem _ _ _
  · rw [generate_maps_created_eq hT cfg (generate_maps T cfg fs0).fs]
    have hmods : modulesOf (generate_maps T cfg fs0).fs cfg
        = modulesOf fs0 cfg := modulesOf_congr cfg hinv1
    have hdid : (domainOf (generate_maps T cfg fs0).fs cfg).domain_id
        = (domainOf fs0 cfg).domain_id := rfl
    have hR : (["README.md"] : Path)
        ∈ existingFilesOf (generate_maps T cfg fs0).fs cfg.map_dir :=
      written_rel_mem_existing hT hdry fs0 (by simp [genWrites])
        (by simp) (by rw [path_name_one]; decide)
    have hA : (["ARCHITECTURE.md"] : Path)
        ∈ existingFilesOf (generate_maps T cfg fs0).fs cfg.map_dir :=
      written_rel_mem_existing hT hdry fs0 (by simp [genWrites])
        (by simp) (by rw [path_name_one]; decide)
    have hD : (["domains", (domainOf fs0 cfg).domain_id ++ ".md"] : Path)
        ∈ existingFilesOf (generate_maps T cfg fs0).fs cfg.map_dir :=
      written_rel_mem_existing hT hdry fs0 (by simp [genWrites])
        (by simp) (by rw [path_name_two]; exact strEnds_append _ ".md")
    have hM : ∀ m ∈ modulesOf fs0 cfg,
        modulePathOf (domainOf fs0 cfg).domain_id m
          ∈ existingFilesOf (generate_maps T cfg fs0).fs cfg.map_dir := by
      intro m hm
      refine written_rel_mem_existing hT hdry fs0 ?_
        (by simp [modulePathOf]) (modulePath_ends_md _ _ _)
      simp only [genWrites, List.map_append, List.mem_append,
        List.map_map]
      left
      right
      exact List.mem_map.mpr ⟨m, hm, rfl⟩
    rw [hmods, hdid, if_pos hR, if_pos hA, if_pos hD,
      createdList_eq_nil hM]
    rfl
  · exact gen_raises T cfg (generate_maps T cfg fs0).fs hT

/-- Witness for C2: the second-run behavior at a concrete one-module
source tree. -/
theorem generate_maps_second_run_witness :
    TemplatesOK T0 ∧ cfgW.dry_run = false
      ∧ ((∀ q, FS.lookup
            (generate_maps T0 cfgW (generate_maps T0 cfgW fsW).fs).fs q
            = FS.lookup (generate_maps T0 cfgW fsW).fs q)
        ∧ (generate_maps T0 cfgW
            (generate_maps T0 cfgW fsW).fs).report.created_files = []
        ∧ (generate_maps T0 cfgW (generate_maps T0 cfgW fsW).fs).exc
            = some PyExc.attributeError) :=
  ⟨by decide, rfl, generate_maps_second_run T0 cfgW fsW (by decide) rfl⟩

/-- Counterexample for C2: on a concrete unchanged one-module source tree
the second run's in-flight `ChangeReport` relists the module's symbol in
`new_sections` (the spec demands an empty delta), and the run ends in
`AttributeError` instead of returning a report at all. -/
theorem generate_maps_second_run_counterexample :
    (generate_maps T0 cfgW
        (generate_maps T0 cfgW fsW).fs).report.new_sections
      = [(["modules", "s", "mod.md"], "f")]
    ∧ (generate_maps T0 cfgW (generate_maps T0 cfgW fsW).fs).exc
        = some PyExc.attributeError := by
  constructor
  · rfl
  · rfl

/-! ## C3 -/

/-- C3 corrected: README.md and ARCHITECTURE.md are rendered and written
unconditionally on every (non-dry) run — afterwards their contents are the
freshly rendered text, so pre-existing manual edits are clobbered; the
prior existence of the two files only suppresses their `created_files`
entries. -/
theorem index_architecture_overwritten (T : TemplateStore)
    (cfg : GeneratorConfig) (fs0 : FS) (hT : TemplatesOK T)
    (hdry : cfg.dry_run = false) :
    ∃ rc ac,
      renderReadmeMd T (projectNameOf cfg) cfg.project_description
          [domainOf fs0 cfg] = some rc
        ∧ renderArchitectureMd T (projectNameOf cfg) [domainOf fs0 cfg]
            = some ac
        ∧ FS.lookup (generate_maps T cfg fs0).fs
            (cfg.map_dir ++ ["README.md"]) = some (mkMdFile rc)
        ∧ FS.lookup (generate_maps T cfg fs0).fs
            (cfg.map_dir ++ ["ARCHITECTURE.md"]) = some (mkMdFile ac)
        ∧ ((existingFilesOf fs0 cfg.map_dir).contains ["README.md"]
              = true →
            ["README.md"]
              ∉ (generate_maps T cfg fs0).report.created_files)
        ∧ ((existingFilesOf fs0 cfg.map_dir).contains ["ARCHITECTURE.md"]
              = true →
            ["ARCHITECTURE.md"]
              ∉ (generate_maps T cfg fs0).report.created_files) := by
  obtain ⟨rc, hrc⟩ := renderReadmeMd_total hT (projectNameOf cfg)
    cfg.project_description [domainOf fs0 cfg]
  obtain ⟨ac, hac⟩ := renderArchitectureMd_total hT (projectNameOf cfg)
    [domainOf fs0 cfg]
  have hmodkeys : ∀ w ∈ (modulesOf fs0 cfg).map (fun m =>
      (cfg.map_dir ++ modulePathOf (domainOf fs0 cfg).domain_id m,
       moduleContent T fs0 (domainOf fs0 cfg).domain_id cfg.src_dir
         cfg.map_dir m)),
      w.1 ≠ cfg.map_dir ++ ["README.md"]
        ∧ w.1 ≠ cfg.map_dir ++ ["ARCHITECTURE.md"] := by
    intro w hw
    obtain ⟨m, _, hwm⟩ := List.mem_map.mp hw
    rw [← hwm]
    constructor
    · apply append_left_ne
      intro hcon
      have hlen := congrArg List.length hcon
      simp [modulePathOf] at hlen
    · apply append_left_ne
      intro hcon
      have hlen := congrArg List.length hcon
      simp [modulePathOf] at hlen
  have hDR : ¬(cfg.map_dir ++ ["README.md"]
      = cfg.map_dir ++ ["domains",
        (domainOf fs0 cfg).domain_id ++ ".md"]) := by
    intro hcon
    have hlen := congrArg List.length (List.append_cancel_left hcon)
    simp at hlen
  have hDA : ¬(cfg.map_dir ++ ["ARCHITECTURE.md"]
      = cfg.map_dir ++ ["domains",
        (domainOf fs0 cfg).domain_id ++ ".md"]) := by
    intro hcon
    have hlen := congrArg List.length (List.append_cancel_left hcon)
    simp at hlen
  have hRA : ¬(cfg.map_dir ++ ["README.md"]
      = cfg.map_dir ++ ["ARCHITECTURE.md"]) := by
    intro hcon
    have h2 := List.append_cancel_left hcon
    exact absurd h2 (by decide)
  refine ⟨rc, ac, hrc, hac, ?_, ?_, ?_, ?_⟩
  · rw [generate_maps_fs_eq hT hdry fs0]
    simp only [genWrites, applyWrites_append]
    rw [show ∀ (w : Path × String) (fs : FS),
        applyWrites [w] fs = fs.writeText w.1 w.2 from fun _ _ => rfl]
    rw [lookup_writeText, if_neg hDR]
    rw [lookup_applyWrites_not_mem _ (fun w hw => (hmodkeys w hw).1)]
    rw [show ∀ (w1 w2 : Path × String) (fs : FS),
        applyWrites [w1, w2] fs
          = (fs.writeText w1.1 w1.2).writeText w2.1 w2.2
        from fun _ _ _ => rfl]
    rw [lookup_writeText, if_neg hRA, lookup_writeText, if_pos rfl, hrc]
    rfl
  · rw [generate_maps_fs_eq hT hdry fs0]
    simp only [genWrites, applyWrites_append]
    rw [show ∀ (w : Path × String) (fs : FS),
        applyWrites [w] fs = fs.writeText w.1 w.2 from fun _ _ => rfl]
    rw [lookup_writeText, if_neg hDA]
    rw [lookup_applyWrites_not_mem _ (fun w hw => (hmodkeys w hw).2)]
    rw [show ∀ (w1 w2 : Path × String) (fs : FS),
        applyWrites [w1, w2] fs
          = (fs.writeText w1.1 w1.2).writeText w2.1 w2.2
        from fun _ _ _ => rfl]
    rw [lookup_writeText, if_pos rfl, hac]
    rfl
  · intro hcR hmem
    rw [generate_maps_created_eq hT cfg fs0] at hmem
    rw [if_pos (List.elem_iff.mp hcR)] at hmem
    simp only [List.nil_append, List.mem_append] at hmem
    rcases hmem with (hmem | hmem) | hmem
    · have hsub : (if (["ARCHITECTURE.md"] : Path)
          ∈ existingFilesOf fs0 cfg.map_dir
          then ([] : List Path) else [["ARCHITECTURE.md"]])
          ⊆ [["ARCHITECTURE.md"]] := by
        split
        · exact List.nil_subset _
        · exact List.Subset.refl _
      have h2 := hsub hmem
      rw [List.mem_singleton] at h2
      exact absurd h2 (by decide)
    · obtain ⟨m, _, heq⟩ := mem_createdList hmem
      have hlen := congrArg List.length heq
      simp [modulePathOf] at hlen
    · have hsub : (if (["domains",
          (domainOf fs0 cfg).domain_id ++ ".md"] : Path)
          ∈ existingFilesOf fs0 cfg.map_dir
          then ([] : List Path)
          else [["domains", (domainOf fs0 cfg).domain_id ++ ".md"]])
          ⊆ [["domains", (domainOf fs0 cfg).domain_id ++ ".md"]] := by
        split
        · exact List.nil_subset _
        · exact List.Subset.refl _
      have h2 := hsub hmem
      rw [List.mem_singleton] at h2
      have hlen := congrArg List.length h2
      simp at hlen
  · intro hcA hmem
    rw [generate_maps_created_eq hT cfg fs0] at hmem
    rw [if_pos (List.elem_iff.mp hcA)] at hmem
    simp only [List.append_nil, List.mem_append] at hmem
    rcases hmem with (hmem | hmem) | hmem
    · have hsub : (if (["README.md"] : Path)
          ∈ existingFilesOf fs0 cfg.map_dir
          then ([] : List Path) else [["README.md"]])
          ⊆ [["README.md"]] := by
        split
        · exact List.nil_subset _
        · exact List.Subset.refl _
      have h2 := hsub hmem
      rw [List.mem_singleton] at h2
      exact absurd h2 (by decide)
    · obtain ⟨m, _, heq⟩ := mem_createdList hmem
      have hlen := congrArg List.length heq
      simp [modulePathOf] at hlen
    · have hsub : (if (["domains",
          (domainOf fs0 cfg).domain_id ++ ".md"] : Path)
          ∈ existingFilesOf fs0 cfg.map_dir
          then ([] : List Path)
          else [["domains", (domainOf fs0 cfg).domain_id ++ ".md"]])
          ⊆ [["domains", (domainOf fs0 cfg).domain_id ++ ".md"]] := by
        split
        · exact List.nil_subset _
        · exact List.Subset.refl _
      have h2 := hsub hmem
      rw [List.mem_singleton] at h2
      have hlen := congrArg List.length h2
      simp at hlen

/-- Witness for C3: the overwrite behavior at a concrete filesystem whose
map directory already holds a manually edited README.md. -/
theorem index_architecture_overwritten_witness :
    TemplatesOK T0 ∧ cfgW.dry_run = false
      ∧ (∃ rc ac,
          renderReadmeMd T0 (projectNameOf cfgW) cfgW.project_description
              [domainOf fsC3 cfgW] = some rc
            ∧ renderArchitectureMd T0 (projectNameOf cfgW)
                [domainOf fsC3 cfgW] = some ac
            ∧ FS.lookup (generate_maps T0 cfgW fsC3).fs
                (cfgW.map_dir ++ ["README.md"]) = some (mkMdFile rc)
            ∧ FS.lookup (generate_maps T0 cfgW fsC3).fs
                (cfgW.map_dir ++ ["ARCHITECTURE.md"]) = some (mkMdFile ac)
            ∧ ((existingFilesOf fsC3 cfgW.map_dir).contains ["README.md"]
                  = true →
                ["README.md"]
                  ∉ (generate_maps T0 cfgW fsC3).report.created_files)
            ∧ ((existingFilesOf fsC3 cfgW.map_dir).contains
                  ["ARCHITECTURE.md"] = true →
                ["ARCHITECTURE.md"]
                  ∉ (generate_maps T0 cfgW fsC3).report.created_files)) :=
  ⟨by decide, rfl,
    index_architecture_overwritten T0 cfgW fsC3 (by decide) rfl⟩

/-- Counterexample for C3: a map directory with a manually edited
README.md ("manual"); after the run the file holds the freshly rendered
content instead — the manual edit is clobbered, contradicting the claim
that the two files are written only if absent. -/
theorem index_architecture_overwritten_counterexample :
    ((generate_maps T0 cfgW fsC3).fs.lookup ["m", "README.md"]).map
        FSFile.content = some "\n"
    ∧ (fsC3.lookup ["m", "README.md"]).map FSFile.content = some "manual"
    ∧ ¬(("\n" : String) = "manual") := by
  refine ⟨rfl, rfl, by decide⟩

/-! ## C7 counterexample -/

/-- Counterexample for C7: the section `_render_module_md` emits for a
docstring-less symbol has `is_placeholder = true` but description exactly
`""`, which does not carry the `<!-- TODO: ` sentinel — so the claimed
equivalence between the flag and the sentinel form fails on this
generation path. -/
theorem placeholder_invariant_counterexample :
    (sectionsOfModule modC7).map
        (fun s => (s.is_placeholder, s.description)) = [(true, "")]
    ∧ strStarts "" placeholderMarkL = false := by
  exact ⟨rfl, rfl⟩

end CodeMap
